import Mathlib

/-!
Shallow embedding of `mhcflurry/antigen_presentation/presentation_model.py`
(the `PresentationModel` class and its helpers), developed to check the
natural-language specification of the repository against the code.

Modelling conventions:
* pandas DataFrames are column-ordered association lists from column name to
  a list of cells; a cell is a string, a rational number, or null (pandas
  NaN/None).  Floating point numbers are modelled by rationals.
* Python exceptions (assertion errors, `NotImplementedError`, sklearn
  `ValueError`) are modelled with `Except String`.
* The duck-typed component models, the final sklearn predictor and the decoy
  strategy are pluggable objects; they are modelled as records of the
  functions the presentation model actually invokes on them.
* The dynamic `eval` of feature-expression strings against the numpy
  namespace is an external runtime service; it is modelled by an explicit
  semantics argument `sem : ExprSem` giving the value column an expression
  string produces on a table.
* The seeded `numpy` random number generator used by sklearn's
  `StratifiedKFold(shuffle=True, random_state=...)` is abstracted by an
  explicit `shuffle` argument (one permutation per class, as in sklearn's
  `_make_test_folds`); determinism in the random state corresponds to the
  `shuffle` argument being a fixed function of it.
-/

/-- A pandas cell: a string, a (rational) number, or a missing value. -/
inductive Cell where
  | str (s : String)
  | num (q : ℚ)
  | null
deriving DecidableEq, Repr

/-- A pandas DataFrame: ordered columns, each a name with a list of cells. -/
abbrev Table := List (String × List Cell)

/-- Column lookup (pandas `df[name]`). -/
def getCol (df : Table) (name : String) : Option (List Cell) :=
  (df.find? (fun c => c.1 == name)).map (fun c => c.2)

/-- Column membership (pandas `name in df.columns`). -/
def hasCol (df : Table) (name : String) : Bool :=
  df.any (fun c => c.1 == name)

/-- Column assignment (pandas `df[name] = values`): replaces the column in
place if present, else appends it. -/
def setCol : Table → String → List Cell → Table
  | [], name, vals => [(name, vals)]
  | c :: rest, name, vals =>
      if c.1 == name then (name, vals) :: rest else c :: setCol rest name vals

/-- Column deletion (Python `del df[name]`). -/
def delCol (df : Table) (name : String) : Table :=
  df.filter (fun c => c.1 != name)

/-- Number of rows (pandas `len(df)`): the length of the first column, 0 for
a frame with no columns. -/
def numRows (df : Table) : Nat :=
  match df with
  | [] => 0
  | c :: _ => c.2.length

/-- Positional row selection (pandas `df.iloc[idxs]`, followed by the
`reset_index(drop=True)` the fit code performs). -/
def iloc (df : Table) (idxs : List Nat) : Table :=
  df.map (fun c => (c.1, idxs.map (fun j => c.2.getD j Cell.null)))

/-- Does a column contain a missing value (pandas `isnull().any()`). -/
def colHasNull (col : List Cell) : Bool :=
  col.any (fun c => c == Cell.null)

/-- Does any cell of the table hold a missing value. -/
def tableHasNull (df : Table) : Bool :=
  df.any (fun c => colHasNull c.2)

/-- Row-major view of a table (numpy `df.values`). -/
def rowsOf (df : Table) : List (List Cell) :=
  (List.range (numRows df)).map (fun j => df.map (fun c => c.2.getD j Cell.null))

/-- pandas `concat([t1, t2], ignore_index=True)`: columns of `t1` extended
with the matching columns of `t2` (missing ones padded with nulls), then the
columns appearing only in `t2`, padded with nulls for the `t1` rows. -/
def concatTables (t1 t2 : Table) : Table :=
  t1.map (fun c =>
      (c.1, c.2 ++ ((getCol t2 c.1).getD (List.replicate (numRows t2) Cell.null))))
    ++ (t2.filter (fun c => !(hasCol t1 c.1))).map
        (fun c => (c.1, List.replicate (numRows t1) Cell.null ++ c.2))

/-- Numeric view of a cell; pandas numeric reductions treat missing values
as 0 (they are skipped by `sum`) and comparisons with them as false. -/
def cellToNumD (c : Cell) : ℚ :=
  match c with
  | Cell.num q => q
  | _ => 0

/-- String view of a cell (experiment names are strings in all tables). -/
def cellToStr (c : Cell) : String :=
  match c with
  | Cell.str s => s
  | _ => ""

/-- The `experiment_name` column of a table, as strings. -/
def expCol (df : Table) : List String :=
  ((getCol df "experiment_name").getD []).map cellToStr

/-- Insert a rational into an ascending-sorted list (model of the ascending
sort performed by `numpy.sort`). -/
def insertAscQ (a : ℚ) : List ℚ → List ℚ
  | [] => [a]
  | b :: rest => if a ≤ b then a :: b :: rest else b :: insertAscQ a rest

/-- Ascending insertion sort on rationals (`numpy.sort`). -/
def sortAscQ (l : List ℚ) : List ℚ :=
  l.foldr insertAscQ []

/-- Code-point lexicographic comparison of character lists (the order
`numpy.unique` sorts strings by). -/
def charListLe : List Char → List Char → Bool
  | [], _ => true
  | _ :: _, [] => false
  | a :: as, b :: bs =>
      if a.toNat < b.toNat then true
      else if b.toNat < a.toNat then false
      else charListLe as bs

/-- Code-point lexicographic order on strings. -/
def strLe (a b : String) : Bool :=
  charListLe a.data b.data

/-- Insert a string into an ascending-sorted list (by `strLe`). -/
def insertAscStr (a : String) : List String → List String
  | [] => [a]
  | b :: rest =>
      if strLe a b then a :: b :: rest else b :: insertAscStr a rest

/-- Insert a string into a sorted duplicate-free list, skipping it when
already present. -/
def insertUniq (a : String) (l : List String) : List String :=
  if l.contains a then l else insertAscStr a l

/-- The distinct class labels in ascending sorted order, as computed by
`numpy.unique` inside sklearn's `StratifiedKFold`. -/
def uniqueSorted (y : List String) : List String :=
  y.foldr insertUniq []

/-- Number of even positions in the interval `[o, o + c)`: the size of the
intersection of a class's block in the sorted label vector with the slice
`y_order[0::2]` taken by sklearn's per-fold allocation. -/
def evensIn (o c : Nat) : Nat :=
  (c + (if o % 2 = 0 then 1 else 0)) / 2

/-- Number of odd positions in the interval `[o, o + c)` (the slice
`y_order[1::2]`). -/
def oddsIn (o c : Nat) : Nat :=
  (c + (if o % 2 = 1 then 1 else 0)) / 2

/-- sklearn `StratifiedKFold(n_splits=2)._make_test_folds` fold allocation:
walking the classes in sorted order with running offset `o`, class `k` of
size `cnt` contributes `evensIn o cnt` members to test fold 0 and the rest
to test fold 1; the shuffled-within-class order of those fold ids is given
by the rng abstraction `shuffle`. -/
def allocFolds (shuffle : Nat → List Nat → List Nat) :
    Nat → Nat → List (String × Nat) → List (String × List Nat)
  | _, _, [] => []
  | k, o, (cls, cnt) :: rest =>
      (cls, shuffle k
          (List.replicate (evensIn o cnt) 0 ++ List.replicate (cnt - evensIn o cnt) 1))
        :: allocFolds shuffle (k + 1) (o + cnt) rest

/-- Distribute the per-class fold-id lists back over the label vector in row
order: the m-th occurrence of a class receives the m-th entry of that
class's fold-id list (sklearn `test_folds[y_encoded == k] = folds_for_class`). -/
def assignFolds : List String → (String → List Nat) → List Nat
  | [], _ => []
  | c :: rest, t =>
      (t c).headD 0 ::
        assignFolds rest (fun d => if d = c then (t c).tail else t d)

/-- The per-row test-fold assignment of sklearn
`StratifiedKFold(n_splits=2, shuffle=True)` on label vector `y`. -/
def makeTestFolds (shuffle : Nat → List Nat → List Nat) (y : List String) :
    List Nat :=
  let alloc := allocFolds shuffle 0 0
    ((uniqueSorted y).map (fun c => (c, y.count c)))
  assignFolds y (fun c => (List.lookup c alloc).getD [])

/-- sklearn `StratifiedKFold(n_splits=2, shuffle=True).split(X, y)`:
raises `ValueError` when there are fewer samples than splits, or when every
class has fewer members than `n_splits = 2`; otherwise yields, for each test
fold `i` in order, the pair (train indices, test indices) with the test
indices those rows assigned fold `i` and the train indices the rest. -/
def stratifiedKFold2Split (shuffle : Nat → List Nat → List Nat)
    (y : List String) : Except String (List (List Nat × List Nat)) :=
  if y.length < 2 then
    Except.error "ValueError: Cannot have number of splits n_splits=2 greater than the number of samples"
  else if (uniqueSorted y).all (fun c => y.count c < 2) then
    Except.error "ValueError: n_splits=2 cannot be greater than the number of members in each class"
  else
    let tf := makeTestFolds shuffle y
    Except.ok ([0, 1].map (fun i =>
      ((List.range y.length).filter (fun j => tf.getD j 0 != i),
       (List.range y.length).filter (fun j => tf.getD j 0 == i))))

/-- Serialized fit parameters of a component model (opaque to the
presentation model; it only stores and forwards them). -/
abbrev FitBlob := String

/-- A trained (or never-needing-training) component model, as used by the
presentation model after fitting: it is asked for row-aligned prediction
columns and for its serialized fit.  (`PresentationComponentModel.predict`
returns a mapping from declared column name to values.) -/
structure FittedComponentModel where
  predict : Table → List (String × List Cell)
  get_fit : FitBlob

/-- A pluggable component model ("final model input"), the capabilities the
presentation model invokes on it: declared output column names, whether it
requires its own fitting, its behaviour when used untrained (the single-fold
path stores the component models themselves), `clone_and_fit` on a training
hits table, and `clone_and_restore_fit` from a serialized fit. -/
structure ComponentModel where
  column_names : List String
  requires_fitting : Bool
  self_fitted : FittedComponentModel
  clone_and_fit : Table → FittedComponentModel
  clone_and_restore_fit : FitBlob → FittedComponentModel

/-- A trained final predictor (sklearn estimator after `fit`): the
presentation model only calls `predict_proba(...)[:, 1]`, the
probability-of-positive-class column. -/
structure FittedSKPredictor where
  predict_proba_pos : List (List Cell) → List ℚ

/-- An untrained final predictor specification (the `predictor` constructor
argument, default `LogisticRegression()`); `clone(predictor).fit(x, y)` is
modelled by applying `fit` to the feature matrix and target. -/
structure SKPredictor where
  fit : List (List Cell) → List Cell → FittedSKPredictor

/-- A decoy strategy: produces synthetic negative rows for a hits table. -/
structure DecoyStrategy where
  decoys : Table → Table

/-- Semantics of Python `eval(expression, numpy.__dict__, input_df)`: the
value column an expression string produces on a table. -/
abbrev ExprSem := String → Table → List Cell

/-- The result dict of the scoring methods; `none` marks a key absent in the
taken branch, and a `score` of `none` models the NaN produced by numpy when
the table contains no hits (division by a zero hit count). -/
structure ScoreResult where
  score : Option ℚ
  hit_indices : Option (List ℚ)
  total_peptides : Option Nat

/-- The fit artifact returned by `PresentationModel.get_fit`: per-fold lists
of serialized component-model fits, the trained final predictors themselves,
the experiment names seen in fitting, and the feature expressions. -/
structure FitArtifact where
  trained_component_model_fits : List (List FitBlob)
  presentation_models_predictors : List FittedSKPredictor
  fit_experiments : List String
  feature_expressions : List String

/-- The `PresentationModel` object state.  `trained_component_models`,
`presentation_models_predictors` and `fit_experiments` are `None` until the
model is fit; `decoy_strategy` is cleared (set to `None`) by `fit`. -/
structure PresentationModel where
  component_models : List ComponentModel
  component_models_require_fitting : Bool
  feature_expressions : List String
  decoy_strategy : Option DecoyStrategy
  random_state : Nat
  predictor : SKPredictor
  ensemble_size : Option Nat
  trained_component_models : Option (List (List FittedComponentModel))
  presentation_models_predictors : Option (List FittedSKPredictor)
  fit_experiments : Option (List String)

/-- `PresentationModel.has_been_fit` property. -/
def PresentationModel.has_been_fit (m : PresentationModel) : Bool :=
  m.fit_experiments.isSome

/-- The accumulating column-collision check performed by
`PresentationModel.__init__`: walking the component models, each model's
declared columns must not intersect the union of the columns declared so
far (`assert not columns.intersection(model_cols)`). -/
def checkColumnsDisjoint : List String → List ComponentModel → Bool
  | _, [] => true
  | acc, cm :: rest =>
      if cm.column_names.any (fun c => acc.contains c) then false
      else checkColumnsDisjoint (acc ++ cm.column_names) rest

/-- `PresentationModel.__init__`: checks the pairwise disjointness of the
component models' declared column names (an `AssertionError` at
construction time otherwise), records whether any component model requires
fitting, and initializes the unfit state. -/
def PresentationModel.make (component_models : List ComponentModel)
    (feature_expressions : List String) (decoy_strategy : DecoyStrategy)
    (predictor : SKPredictor) (random_state : Nat)
    (ensemble_size : Option Nat) : Except String PresentationModel :=
  if checkColumnsDisjoint [] component_models then
    Except.ok
      { component_models := component_models
        component_models_require_fitting :=
          component_models.any (fun cm => cm.requires_fitting)
        feature_expressions := feature_expressions
        decoy_strategy := some decoy_strategy
        random_state := random_state
        predictor := predictor
        ensemble_size := ensemble_size
        trained_component_models := none
        presentation_models_predictors := none
        fit_experiments := none }
  else Except.error "AssertionError: component model column names overlap"

/-- Modelled from the spec: `assert_no_null` from `mhcflurry.common` (the
module is not under src/).  Per the spec's feature-expression evaluator
contract, evaluation fails "with an explicit error naming the offending
expression if any output is missing"; accordingly this check raises an
assertion-style error carrying its message when the values contain a
missing value, and is a no-op otherwise. -/
def assert_no_null (values : List Cell) (message : String) :
    Except String Unit :=
  if colHasNull values then
    Except.error ("AssertionError: null values: " ++ message)
  else Except.ok ()

/-- Modelled from the spec: `drop_nulls_and_warn` from `mhcflurry.common`
(the module is not under src/).  Per the spec, "rows whose evaluated feature
expressions contain missing values are dropped, with a count/identity
logged": returns the table without the rows containing a missing value in
any column, together with the number of dropped rows (the logged warning is
modelled by that observable count). -/
def drop_nulls_and_warn (df : Table) : Table × Nat :=
  let n := numRows df
  let keep := (List.range n).filter
    (fun j => !(df.any (fun col => col.2.getD j Cell.null == Cell.null)))
  (iloc df keep, n - keep.length)

/-- The loop body of `evaluate_expressions` for one expression (split out of
the loop for reasoning): evaluate it against the input frame, assert the
output is row-aligned (`assert len(values) == len(input_df)`), assert it
has no missing values (`assert_no_null(series, expression)`), and add the
output as a column named by the expression. -/
def evalExprStep (sem : ExprSem) (input_df : Table) (acc : Table)
    (e : String) : Except String Table := do
  let values := sem e input_df
  if values.length ≠ numRows input_df then
    Except.error ("AssertionError: " ++ e)
  else do
    assert_no_null values e
    Except.ok (setCol acc e values)

/-- `PresentationModel.evaluate_expressions` (loop in `evalExprStep`): one
output column per feature expression, collected in a fresh frame which is
finally asserted to have as many rows as the input. -/
def evaluate_expressions (sem : ExprSem) (feature_expressions : List String)
    (input_df : Table) : Except String Table := do
  let result ← feature_expressions.foldlM (evalExprStep sem input_df)
    ([] : Table)
  if numRows result ≠ numRows input_df then
    Except.error "AssertionError: len(result) == len(input_df)"
  else
    Except.ok result

/-- `make_hits_and_decoys_df`: label the hits with `hit = 1`, obtain decoys
from the strategy (which receives the labelled hits frame), label them with
`hit = 0`, and concatenate. -/
def make_hits_and_decoys_df (hits_df : Table)
    (decoy_strategy : DecoyStrategy) : Table :=
  let hits_df := setCol hits_df "hit"
    (List.replicate (numRows hits_df) (Cell.num 1))
  let decoys_df := decoy_strategy.decoys hits_df
  let decoys_df := setCol decoys_df "hit"
    (List.replicate (numRows decoys_df) (Cell.num 0))
  concatTables hits_df decoys_df

/-- `PresentationModel.make_features_and_target`: requires `peptide` and
`hit` columns, evaluates the feature expressions, appends the `hit` column,
drops null rows with a warning (`drop_nulls_and_warn`), and splits the
result into the feature table and the target column. -/
def PresentationModel.make_features_and_target (sem : ExprSem)
    (m : PresentationModel) (hits_and_decoys_df : Table) :
    Except String (Table × List Cell) := do
  if ¬ hasCol hits_and_decoys_df "peptide" then
    Except.error "AssertionError: peptide in hits_and_decoys_df"
  else if ¬ hasCol hits_and_decoys_df "hit" then
    Except.error "AssertionError: hit in hits_and_decoys_df"
  else do
    let df ← evaluate_expressions sem m.feature_expressions hits_and_decoys_df
    let df := setCol df "hit" ((getCol hits_and_decoys_df "hit").getD [])
    let new_df := (drop_nulls_and_warn df).1
    let y := (getCol new_df "hit").getD []
    let x := delCol new_df "hit"
    Except.ok (x, y)

/-- One component model's in-place contribution inside
`fit_final_predictor`: its predictions on the current frame are computed
once and then written into that frame column by column (so later component
models see the columns added by earlier ones). -/
def applyComponentPredictions (cm : FittedComponentModel) (df : Table) :
    Table :=
  (cm.predict df).foldl (fun acc cv => setCol acc cv.1 cv.2) df

/-- `PresentationModel.fit_final_predictor`: build the hits-and-decoys
frame, populate it with every component model's prediction columns, derive
features and target, and fit a clone of the configured predictor on them. -/
def PresentationModel.fit_final_predictor (sem : ExprSem)
    (m : PresentationModel) (hits_df : Table)
    (component_models : List FittedComponentModel) :
    Except String FittedSKPredictor := do
  match m.decoy_strategy with
  | none => Except.error "AttributeError: decoy_strategy is None"
  | some ds => do
    let hd := make_hits_and_decoys_df hits_df ds
    let hd := component_models.foldl
      (fun acc cm => applyComponentPredictions cm acc) hd
    let xy ← m.make_features_and_target sem hd
    Except.ok (m.predictor.fit (rowsOf xy.1) xy.2)

/-- `PresentationModel.fit`: asserts the model is unfit and the hits table
has `experiment_name` and `peptide` columns (and that no trained state is
present), records the experiment names, then branches: two-fold
cross-validated fitting when some component model requires fitting and no
ensemble size is given (for each (train, test) fold pair produced by the
stratified split - both asserted non-empty - clone-and-fit every component
model on the train fold and fit a final predictor on the test fold);
`NotImplementedError` on the ensemble path; otherwise a single final
predictor fit on the full hits table with the component models used as
they are.  The decoy strategy is cleared at the end. -/
def PresentationModel.fit (sem : ExprSem)
    (shuffle : Nat → List Nat → List Nat) (m : PresentationModel)
    (hits_df : Table) : Except String PresentationModel := do
  if m.has_been_fit then
    Except.error "AssertionError: not self.has_been_fit"
  else if ¬ hasCol hits_df "experiment_name" then
    Except.error "AssertionError: experiment_name in hits_df.columns"
  else if ¬ hasCol hits_df "peptide" then
    Except.error "AssertionError: peptide in hits_df.columns"
  else if m.trained_component_models.isSome then
    Except.error "AssertionError: self.trained_component_models is None"
  else if m.presentation_models_predictors.isSome then
    Except.error "AssertionError: self.presentation_models_predictors is None"
  else do
    let fit_experiments := (expCol hits_df).eraseDups
    if m.component_models_require_fitting ∧ m.ensemble_size = none then do
      let splits ← stratifiedKFold2Split shuffle (expCol hits_df)
      let res ← splits.foldlM
        (fun (acc : List (List FittedComponentModel) × List FittedSKPredictor)
             fold => do
          if fold.1.length = 0 then
            Except.error "AssertionError: len(fold1) > 0"
          else if fold.2.length = 0 then
            Except.error "AssertionError: len(fold2) > 0"
          else do
            let trained := m.component_models.map
              (fun cm => cm.clone_and_fit (iloc hits_df fold.1))
            let fp ← m.fit_final_predictor sem (iloc hits_df fold.2) trained
            Except.ok (acc.1 ++ [trained], acc.2 ++ [fp]))
        ([], [])
      Except.ok { m with
        trained_component_models := some res.1
        presentation_models_predictors := some res.2
        fit_experiments := some fit_experiments
        decoy_strategy := none }
    else if m.component_models_require_fitting then
      Except.error "NotImplementedError"
    else do
      let fp ← m.fit_final_predictor sem hits_df
        (m.component_models.map (fun cm => cm.self_fitted))
      Except.ok { m with
        trained_component_models :=
          some [m.component_models.map (fun cm => cm.self_fitted)]
        presentation_models_predictors := some [fp]
        fit_experiments := some fit_experiments
        decoy_strategy := none }

/-- Elementwise sum of a list of equal-length vectors (the reduction inside
`numpy.mean(..., axis=0)`). -/
def sumCols : List (List ℚ) → List ℚ
  | [] => []
  | [l] => l
  | l :: rest => List.zipWith (fun a b => a + b) l (sumCols rest)

/-- `numpy.mean(list_of_arrays, axis=0)`: the elementwise arithmetic mean. -/
def meanCols (ls : List (List ℚ)) : List ℚ :=
  (sumCols ls).map (fun v => v / (ls.length : ℚ))

/-- The per-pair frame construction inside `predict_to_df`: a fresh frame is
populated with every component model's predictions on the peptides table
(each value column asserted free of missing values). -/
def buildComponentDf (component_models : List FittedComponentModel)
    (peptides_df : Table) : Except String Table :=
  component_models.foldlM
    (fun acc cm =>
      (cm.predict peptides_df).foldlM
        (fun acc2 cv => do
          assert_no_null cv.2 cv.1
          Except.ok (setCol acc2 cv.1 cv.2))
        acc)
    ([] : Table)

/-- The body of `predict_to_df`'s loop for one stored (component models,
final predictor) pair: build the component-prediction frame, evaluate the
feature expressions on it (asserting no missing values in the result), and
take the predictor's probability-of-positive-class output on the feature
rows. -/
def predictPerPair (sem : ExprSem) (feature_expressions : List String)
    (pair : List FittedComponentModel × FittedSKPredictor)
    (peptides_df : Table) : Except String (List ℚ) := do
  let df ← buildComponentDf pair.1 peptides_df
  let x_df ← evaluate_expressions sem feature_expressions df
  if tableHasNull x_df then
    Except.error "AssertionError: assert_no_null(x_df)"
  else
    Except.ok (pair.2.predict_proba_pos (rowsOf x_df))

/-- `PresentationModel.predict_to_df`: requires a fit model and
`experiment_name`/`peptide` columns, asserts the stored predictor and
component-model lists have equal length, computes one prediction column per
stored pair, and returns them in a frame: a single pair's column is renamed
`Prediction`; with several pairs the per-pair columns are kept and a
`Prediction` column holding their elementwise mean is added. -/
def PresentationModel.predict_to_df (sem : ExprSem) (m : PresentationModel)
    (peptides_df : Table) : Except String Table := do
  if ¬ m.has_been_fit then
    Except.error "AssertionError: self.has_been_fit"
  else if ¬ hasCol peptides_df "experiment_name" then
    Except.error "AssertionError: experiment_name in peptides_df.columns"
  else if ¬ hasCol peptides_df "peptide" then
    Except.error "AssertionError: peptide in peptides_df.columns"
  else do
    let trained := m.trained_component_models.getD []
    let preds := m.presentation_models_predictors.getD []
    if preds.length ≠ trained.length then
      Except.error "AssertionError: predictors and trained models differ in length"
    else do
      let pairResults ← (trained.zip preds).mapM
        (fun pair => predictPerPair sem m.feature_expressions pair peptides_df)
      let names := (List.range pairResults.length).map
        (fun i => "Prediction (Model " ++ toString (i + 1) ++ ")")
      if pairResults.length = 1 then
        Except.ok [("Prediction", (pairResults.headD []).map Cell.num)]
      else
        Except.ok
          ((names.zip (pairResults.map (fun l => l.map Cell.num)))
            ++ [("Prediction", (meanCols pairResults).map Cell.num)])

/-- `PresentationModel.predict`: the `Prediction` column of
`predict_to_df`, as an array of floats. -/
def PresentationModel.predict (sem : ExprSem) (m : PresentationModel)
    (peptides_df : Table) : Except String (List ℚ) := do
  if ¬ m.has_been_fit then
    Except.error "AssertionError: self.has_been_fit"
  else do
    let df ← m.predict_to_df sem peptides_df
    Except.ok (((getCol df "Prediction").getD []).map cellToNumD)

/-- pandas `Series.rank(ascending=False)` with the default `average`
method: each value receives the mean of the 1-based descending-order
positions of its tie block, that is (number of strictly greater values) +
((number of equal values) + 1) / 2. -/
def rankDesc (vs : List ℚ) : List ℚ :=
  vs.map (fun v =>
    ((vs.countP (fun u => decide (v < u)) : ℚ)) +
      (((vs.countP (fun u => u == v) : ℚ)) + 1) / 2)

/-- Insert a row index into a list of row indices sorted descending by
value, after the indices of strictly greater or equal value. -/
def insertDescIdx (vs : List ℚ) (j : Nat) : List Nat → List Nat
  | [] => [j]
  | b :: rest =>
      if vs.getD b 0 < vs.getD j 0 then j :: b :: rest
      else b :: insertDescIdx vs j rest

/-- Stable descending sort of the row indices by value (pandas
`nlargest(n, col)` keeps the first of equal rows). -/
def sortDescIdx (vs : List ℚ) : List Nat :=
  (List.range vs.length).foldr (insertDescIdx vs) []

/-- `PresentationModel.score_from_peptides_df`: asserts a fit model and the
`peptide`/`experiment_name`/`hit` columns, writes the model's predictions
into the caller's table as a new `prediction` column (an in-place pandas
column assignment: the caller's frame is mutated; the returned table is
that mutated frame), and computes the PPV scoring dict.  With
`include_hit_indices` the hits' 1-based descending ranks are reported
sorted ascending together with the row count and the fraction of hits
ranked within the top `top_n` positions, `top_n` being the sum of the `hit`
column; without it, only the mean of `hit` over the `top_n` rows with the
largest predictions is reported.  A numpy NaN score (no hits) is modelled
as `none`. -/
def PresentationModel.score_from_peptides_df (sem : ExprSem)
    (m : PresentationModel) (peptides_df : Table)
    (include_hit_indices : Bool) : Except String (ScoreResult × Table) := do
  if ¬ m.has_been_fit then
    Except.error "AssertionError: self.has_been_fit"
  else if ¬ hasCol peptides_df "peptide" then
    Except.error "AssertionError: peptide in peptides_df.columns"
  else if ¬ hasCol peptides_df "experiment_name" then
    Except.error "AssertionError: experiment_name in peptides_df.columns"
  else if ¬ hasCol peptides_df "hit" then
    Except.error "AssertionError: hit in peptides_df.columns"
  else do
    let preds ← m.predict sem peptides_df
    let peptides_df := setCol peptides_df "prediction" (preds.map Cell.num)
    let hitCells := (getCol peptides_df "hit").getD []
    let top_n : ℚ := (hitCells.map cellToNumD).sum
    if include_hit_indices then
      let predCol := ((getCol peptides_df "prediction").getD []).map cellToNumD
      let ranks := rankDesc predCol
      let hit_indices := sortAscQ
        (((ranks.zip hitCells).filter
            (fun rc => decide (0 < cellToNumD rc.2))).map (fun rc => rc.1))
      let score := if top_n = 0 then none
        else some (((hit_indices.countP (fun r => decide (r ≤ top_n))) : ℚ) / top_n)
      Except.ok
        ({ score := score
           hit_indices := some hit_indices
           total_peptides := some (numRows peptides_df) }, peptides_df)
    else
      let predCol := ((getCol peptides_df "prediction").getD []).map cellToNumD
      let topIdx := (sortDescIdx predCol).take top_n.floor.toNat
      let score := if topIdx.length = 0 then none
        else some
          ((topIdx.map (fun j => cellToNumD (hitCells.getD j Cell.null))).sum
            / (topIdx.length : ℚ))
      Except.ok
        ({ score := score, hit_indices := none, total_peptides := none },
         peptides_df)

/-- `PresentationModel.score_from_hits_and_decoy_strategy`: assemble a
hits-and-decoys table and score it (with hit indices). -/
def PresentationModel.score_from_hits_and_decoy_strategy (sem : ExprSem)
    (m : PresentationModel) (hits_df : Table)
    (decoy_strategy : DecoyStrategy) : Except String (ScoreResult × Table) := do
  if ¬ m.has_been_fit then
    Except.error "AssertionError: self.has_been_fit"
  else
    m.score_from_peptides_df sem
      (make_hits_and_decoys_df hits_df decoy_strategy) true

/-- `PresentationModel.get_fit`: asserts a fit model and returns the fit
artifact: the per-fold serialized component-model fits, the trained final
predictors (as objects), the fit experiments and the feature expressions. -/
def PresentationModel.get_fit (m : PresentationModel) :
    Except String FitArtifact :=
  if ¬ m.has_been_fit then
    Except.error "AssertionError: self.has_been_fit"
  else
    Except.ok
      { trained_component_model_fits :=
          (m.trained_component_models.getD []).map
            (fun models => models.map (fun cm => cm.get_fit))
        presentation_models_predictors :=
          m.presentation_models_predictors.getD []
        fit_experiments := m.fit_experiments.getD []
        feature_expressions := m.feature_expressions }

/-- `PresentationModel.restore_fit`: asserts an unfit model; a mismatch
between the artifact's feature expressions and the live instance's is
logged as a warning (returned in the warning list) and restoration
proceeds; the artifact's fold count must equal 2 when the instance's
component models require fitting and 1 otherwise (`AssertionError`
otherwise); each fold's component models are restored with
`clone_and_restore_fit` (the artifact structure itself has no unhandled
keys, so the `assert not fit` check always passes, and the final
fold-count assert holds by construction). -/
def PresentationModel.restore_fit (m : PresentationModel)
    (fit : FitArtifact) : Except String (PresentationModel × List String) := do
  if m.has_been_fit then
    Except.error "AssertionError: not self.has_been_fit"
  else do
    let warnings :=
      if fit.feature_expressions ≠ m.feature_expressions then
        ["Feature expressions restored from fit do not match those of this PresentationModel"]
      else []
    let expected := if m.component_models_require_fitting then 2 else 1
    if fit.trained_component_model_fits.length ≠ expected then
      Except.error "AssertionError: Wrong length: model_input_fits"
    else
      Except.ok
        ({ m with
            presentation_models_predictors :=
              some fit.presentation_models_predictors
            fit_experiments := some fit.fit_experiments
            trained_component_models :=
              some (fit.trained_component_model_fits.map
                (fun fold =>
                  (m.component_models.zip fold).map
                    (fun p => p.1.clone_and_restore_fit p.2))) },
         warnings)

/-- The row indices of a table whose `hit` cell equals 1 (the rows a
hits-and-decoys frame marks as actual hits). -/
def hitRowIndices (t : Table) : List Nat :=
  (List.range ((getCol t "hit").getD []).length).filter
    (fun j => ((getCol t "hit").getD []).getD j Cell.null == Cell.num 1)

/-- From the spec's words: the 1-based rank of a value when all rows are
ordered by descending prediction (well-defined under pairwise distinct
predictions): one plus the number of strictly greater predictions. -/
def specRank1 (vs : List ℚ) (v : ℚ) : ℚ :=
  1 + ((vs.countP (fun u => decide (v < u))) : ℚ)

/-- The predictions at the rows labelled as true hits (a prediction vector
filtered by the positive entries of a hit column). -/
def hitsOf (preds : List ℚ) (hits : List Cell) : List ℚ :=
  ((preds.zip hits).filter (fun rc => decide (0 < cellToNumD rc.2))).map
    (fun rc => rc.1)

/-- Identity shuffle: a concrete admissible rng for the stratified split. -/
def idShuffle : Nat → List Nat → List Nat := fun _ l => l

/-- A concrete expression semantics producing no columns (used with models
that have no feature expressions). -/
def semEmpty : ExprSem := fun _ _ => []

/-- A concrete untrained final-predictor specification. -/
def predictorSpec0 : SKPredictor :=
  { fit := fun _ _ => { predict_proba_pos := fun _ => [] } }

/-- A concrete decoy strategy producing no decoys. -/
def dsEmpty : DecoyStrategy := { decoys := fun _ => [] }

/-- A concrete trained final predictor emitting ten fixed probabilities in
strictly descending order. -/
def proba10 : FittedSKPredictor :=
  { predict_proba_pos := fun _ =>
      [10, 9, 8, 7, 6, 5, 4, 3, 2, 1] }

/-- A ten-row peptides table from one experiment whose rows 0 and 2 are the
true hits: under `proba10` the hits are ranked at positions 1 and 3. -/
def df10 : Table :=
  [("experiment_name", List.replicate 10 (Cell.str "E1")),
   ("peptide",
    [Cell.str "P0", Cell.str "P1", Cell.str "P2", Cell.str "P3",
     Cell.str "P4", Cell.str "P5", Cell.str "P6", Cell.str "P7",
     Cell.str "P8", Cell.str "P9"]),
   ("hit",
    [Cell.num 1, Cell.num 0, Cell.num 1, Cell.num 0, Cell.num 0,
     Cell.num 0, Cell.num 0, Cell.num 0, Cell.num 0, Cell.num 0])]

/-- A concrete fit presentation model with no component models, no feature
expressions, and one stored final predictor `proba10`. -/
def m1 : PresentationModel :=
  { component_models := []
    component_models_require_fitting := false
    feature_expressions := []
    decoy_strategy := none
    random_state := 0
    predictor := predictorSpec0
    ensemble_size := none
    trained_component_models := some [[]]
    presentation_models_predictors := some [proba10]
    fit_experiments := some ["E1"] }

/-- The unfit counterpart of `m1` (identical configuration, no trained
state). -/
def m1u : PresentationModel :=
  { m1 with
      decoy_strategy := some dsEmpty
      trained_component_models := none
      presentation_models_predictors := none
      fit_experiments := none }

/-- A concrete expression semantics whose expression `e1` yields a missing
value at exactly one row of a two-row table. -/
def semC2 : ExprSem := fun e df =>
  if e == "e1" then [Cell.num 1, Cell.null]
  else List.replicate (numRows df) (Cell.num 0)

/-- A two-row hits-and-decoys table (one hit, one decoy). -/
def hdC2 : Table :=
  [("peptide", [Cell.str "A", Cell.str "B"]),
   ("experiment_name", [Cell.str "E", Cell.str "E"]),
   ("hit", [Cell.num 1, Cell.num 0])]

/-- A concrete unfit presentation model with the single feature expression
`e1`. -/
def mC2 : PresentationModel :=
  { component_models := []
    component_models_require_fitting := false
    feature_expressions := ["e1"]
    decoy_strategy := some dsEmpty
    random_state := 0
    predictor := predictorSpec0
    ensemble_size := none
    trained_component_models := none
    presentation_models_predictors := none
    fit_experiments := none }

/-- A trained final predictor emitting the constant probability 3/4. -/
def probaA : FittedSKPredictor :=
  { predict_proba_pos := fun _ => [(3 : ℚ) / 4] }

/-- A trained final predictor emitting the constant probability 1/4. -/
def probaB : FittedSKPredictor :=
  { predict_proba_pos := fun _ => [(1 : ℚ) / 4] }

/-- A concrete presentation model in the two-fold-fit state: two stored
(component models, final predictor) pairs. -/
def m3 : PresentationModel :=
  { component_models := []
    component_models_require_fitting := true
    feature_expressions := []
    decoy_strategy := none
    random_state := 0
    predictor := predictorSpec0
    ensemble_size := none
    trained_component_models := some [[], []]
    presentation_models_predictors := some [probaA, probaB]
    fit_experiments := some ["E1"] }

/-- A one-row peptides table. -/
def df1 : Table :=
  [("experiment_name", [Cell.str "E1"]), ("peptide", [Cell.str "P"])]

/-- A trained component model with no output columns. -/
def fcm0 : FittedComponentModel := { predict := fun _ => [], get_fit := "f0" }

/-- A component model that requires fitting. -/
def cmReq : ComponentModel :=
  { column_names := ["aff"]
    requires_fitting := true
    self_fitted := fcm0
    clone_and_fit := fun _ => fcm0
    clone_and_restore_fit := fun _ => fcm0 }

/-- A concrete unfit presentation model whose component model requires
fitting (so `fit` takes the two-fold path and `restore_fit` expects two
folds). -/
def m4 : PresentationModel :=
  { component_models := [cmReq]
    component_models_require_fitting := true
    feature_expressions := []
    decoy_strategy := some dsEmpty
    random_state := 0
    predictor := predictorSpec0
    ensemble_size := none
    trained_component_models := none
    presentation_models_predictors := none
    fit_experiments := none }

/-- A four-row hits table whose four experiment names are all distinct (so
every class has a single member). -/
def hits4 : Table :=
  [("experiment_name",
    [Cell.str "a", Cell.str "b", Cell.str "c", Cell.str "d"]),
   ("peptide",
    [Cell.str "P1", Cell.str "P2", Cell.str "P3", Cell.str "P4"])]

/-- A four-row hits table with experiments `a, a, a, b` (class `a` has
three members, so the stratified split succeeds). -/
def hits45 : Table :=
  [("experiment_name",
    [Cell.str "a", Cell.str "a", Cell.str "a", Cell.str "b"]),
   ("peptide",
    [Cell.str "P1", Cell.str "P2", Cell.str "P3", Cell.str "P4"])]

/-- A fit artifact with one fold of component-model fits. -/
def artOneFold : FitArtifact :=
  { trained_component_model_fits := [["b"]]
    presentation_models_predictors := []
    fit_experiments := []
    feature_expressions := [] }

/-- A fit artifact with two folds of component-model fits and a feature
expression list differing from `m4`'s. -/
def artTwoFold : FitArtifact :=
  { trained_component_model_fits := [["b1"], ["b2"]]
    presentation_models_predictors := []
    fit_experiments := []
    feature_expressions := ["zzz"] }

/-- A zero-row peptides table with the scoring schema. -/
def df0 : Table :=
  [("experiment_name", []), ("peptide", []), ("hit", [])]

/-- The prediction vector `m1` emits (via `proba10`) on any input table:
ten pairwise distinct values in strictly descending order. -/
def preds10 : List ℚ := [10, 9, 8, 7, 6, 5, 4, 3, 2, 1]

/-- The `hit` column of `df10`: rows 0 and 2 are the true hits. -/
def hit10 : List Cell :=
  [Cell.num 1, Cell.num 0, Cell.num 1, Cell.num 0, Cell.num 0,
   Cell.num 0, Cell.num 0, Cell.num 0, Cell.num 0, Cell.num 0]

/-! ### Basic table lemmas -/

theorem find?_setCol_self (df : Table) (n : String) (v : List Cell) :
    (setCol df n v).find? (fun c => c.1 == n) = some (n, v) := by
  induction df with
  | nil => simp [setCol]
  | cons c rest ih =>
      by_cases h : c.1 = n
      · simp [setCol, h]
      · simp only [setCol, beq_iff_eq, h, if_false]
        rw [List.find?_cons_of_neg _ (by simp [h])]
        exact ih

theorem find?_setCol_ne (df : Table) (n n' : String) (v : List Cell)
    (h : n ≠ n') :
    (setCol df n v).find? (fun c => c.1 == n') =
      df.find? (fun c => c.1 == n') := by
  induction df with
  | nil => simp [setCol, h]
  | cons c rest ih =>
      by_cases hc : c.1 = n
      · simp only [setCol, beq_iff_eq, hc, if_true]
        rw [List.find?_cons_of_neg _ (by simp [h]),
          List.find?_cons_of_neg _ (by simp [hc, h])]
      · simp only [setCol, beq_iff_eq, hc, if_false]
        by_cases hc' : c.1 = n'
        · rw [List.find?_cons_of_pos _ (by simp [hc']),
            List.find?_cons_of_pos _ (by simp [hc'])]
        · rw [List.find?_cons_of_neg _ (by simp [hc']),
            List.find?_cons_of_neg _ (by simp [hc'])]
          exact ih

theorem getCol_setCol_self (df : Table) (n : String) (v : List Cell) :
    getCol (setCol df n v) n = some v := by
  rw [getCol, find?_setCol_self]; rfl

theorem getCol_setCol_ne (df : Table) (n n' : String) (v : List Cell)
    (h : n ≠ n') : getCol (setCol df n v) n' = getCol df n' := by
  rw [getCol, find?_setCol_ne df n n' v h, getCol]

theorem hasCol_setCol_self (df : Table) (n : String) (v : List Cell) :
    hasCol (setCol df n v) n = true := by
  induction df with
  | nil => simp [setCol, hasCol]
  | cons c rest ih =>
      by_cases h : c.1 = n
      · simp [setCol, h, hasCol]
      · simp only [setCol, beq_iff_eq, h, if_false]
        simpa [hasCol, beq_iff_eq, h] using ih

theorem setCol_of_not_hasCol (df : Table) (n : String) (v : List Cell)
    (h : hasCol df n = false) : setCol df n v = df ++ [(n, v)] := by
  induction df with
  | nil => simp [setCol]
  | cons c rest ih =>
      simp only [hasCol, List.any_cons, Bool.or_eq_false_iff] at h
      simp only [setCol, h.1, if_false]
      rw [ih h.2]
      simp

theorem numRows_setCol_not_has (df : Table) (n : String) (v : List Cell)
    (h : hasCol df n = false) (hne : df ≠ []) :
    numRows (setCol df n v) = numRows df := by
  match df with
  | [] => exact absurd rfl hne
  | c :: rest =>
      simp only [hasCol, List.any_cons, Bool.or_eq_false_iff] at h
      simp [setCol, h.1, numRows]

theorem mem_setCol (df : Table) (n : String) (v : List Cell)
    (col : String × List Cell) (h : col ∈ setCol df n v) :
    col ∈ df ∨ col = (n, v) := by
  induction df with
  | nil =>
      simp [setCol] at h
      exact Or.inr h
  | cons c rest ih =>
      by_cases hc : c.1 = n
      · simp only [setCol, beq_iff_eq, hc, if_true, List.mem_cons] at h
        rcases h with h | h
        · exact Or.inr h
        · exact Or.inl (List.mem_cons_of_mem c h)
      · simp only [setCol, beq_iff_eq, hc, if_false, List.mem_cons] at h
        rcases h with h | h
        · exact Or.inl (h ▸ List.mem_cons_self c rest)
        · rcases ih h with h2 | h2
          · exact Or.inl (List.mem_cons_of_mem c h2)
          · exact Or.inr h2

/-! ### Sorting lemmas -/

theorem insertAscQ_mem (a x : ℚ) (l : List ℚ) :
    x ∈ insertAscQ a l ↔ x = a ∨ x ∈ l := by
  induction l with
  | nil => simp [insertAscQ]
  | cons b rest ih =>
      by_cases h : a ≤ b
      · simp [insertAscQ, h]
      · simp [insertAscQ, h, ih]
        tauto

theorem insertAscQ_sorted (a : ℚ) (l : List ℚ)
    (h : l.Pairwise (· ≤ ·)) : (insertAscQ a l).Pairwise (· ≤ ·) := by
  induction l with
  | nil => simp [insertAscQ]
  | cons b rest ih =>
      by_cases hab : a ≤ b
      · simp only [insertAscQ, hab, if_true]
        refine List.Pairwise.cons ?_ h
        intro x hx
        rcases List.mem_cons.mp hx with rfl | hx
        · exact hab
        · exact le_trans hab (List.rel_of_pairwise_cons h hx)
      · simp only [insertAscQ, hab, if_false]
        refine List.Pairwise.cons ?_ (ih (List.Pairwise.of_cons h))
        intro x hx
        rcases (insertAscQ_mem a x rest).mp hx with rfl | hx
        · exact le_of_not_le hab
        · exact List.rel_of_pairwise_cons h hx

theorem sortAscQ_sorted (l : List ℚ) : (sortAscQ l).Pairwise (· ≤ ·) := by
  induction l with
  | nil => simp [sortAscQ]
  | cons a rest ih => exact insertAscQ_sorted a _ ih

theorem insertAscQ_perm (a : ℚ) (l : List ℚ) :
    (insertAscQ a l).Perm (a :: l) := by
  induction l with
  | nil => simp [insertAscQ]
  | cons b rest ih =>
      by_cases h : a ≤ b
      · simp [insertAscQ, h]
      · simp only [insertAscQ, h, if_false]
        exact ((ih.cons b).trans (List.Perm.swap a b rest))

theorem sortAscQ_perm (l : List ℚ) : (sortAscQ l).Perm l := by
  induction l with
  | nil => simp [sortAscQ]
  | cons a rest ih =>
      exact (insertAscQ_perm a (sortAscQ rest)).trans (ih.cons a)

theorem insertAscStr_perm (a : String) (l : List String) :
    (insertAscStr a l).Perm (a :: l) := by
  induction l with
  | nil => simp [insertAscStr]
  | cons b rest ih =>
      by_cases h : strLe a b = true
      · simp [insertAscStr, h]
      · simp only [insertAscStr, h, if_false]
        exact ((ih.cons b).trans (List.Perm.swap a b rest))

theorem insertUniq_mem (a x : String) (l : List String) :
    x ∈ insertUniq a l ↔ x = a ∨ x ∈ l := by
  cases h : l.contains a with
  | true =>
      simp only [insertUniq, h, if_true]
      constructor
      · exact Or.inr
      · rintro (rfl | hx)
        · exact (by simpa using h : x ∈ l)
        · exact hx
  | false =>
      simp only [insertUniq, h, Bool.false_eq_true, if_false]
      rw [(insertAscStr_perm a l).mem_iff]
      simp

theorem insertUniq_nodup (a : String) (l : List String) (h : l.Nodup) :
    (insertUniq a l).Nodup := by
  cases hc : l.contains a with
  | true =>
      simp only [insertUniq, hc]
      simpa using h
  | false =>
      simp only [insertUniq, hc, Bool.false_eq_true, if_false]
      rw [(insertAscStr_perm a l).nodup_iff]
      refine List.nodup_cons.mpr ⟨?_, h⟩
      intro hm
      have : l.contains a = true := by simpa using hm
      rw [hc] at this
      exact absurd this (by simp)

theorem uniqueSorted_nodup (y : List String) : (uniqueSorted y).Nodup := by
  induction y with
  | nil => simp [uniqueSorted]
  | cons a rest ih => exact insertUniq_nodup a _ ih

theorem mem_uniqueSorted (y : List String) (x : String) :
    x ∈ uniqueSorted y ↔ x ∈ y := by
  induction y with
  | nil => simp [uniqueSorted]
  | cons a rest ih =>
      show x ∈ insertUniq a (uniqueSorted rest) ↔ _
      rw [insertUniq_mem, ih]
      simp [eq_comm]

/-! ### Stratified split lemmas -/

theorem assignFolds_length :
    ∀ (y : List String) (t : String → List Nat),
      (assignFolds y t).length = y.length
  | [], _ => rfl
  | _ :: rest, t => by
      simp [assignFolds, assignFolds_length rest]

theorem sum_map_update (c : String) (d : Nat) :
    ∀ (ks : List String) (f g : String → Nat), ks.Nodup → c ∈ ks →
      (∀ k ∈ ks, k ≠ c → f k = g k) → f c = g c + d →
      (ks.map f).sum = (ks.map g).sum + d := by
  intro ks
  induction ks with
  | nil => intro f g _ hc; exact absurd hc (List.not_mem_nil c)
  | cons a rest ih =>
      intro f g hnd hc hfg hfc
      rcases List.mem_cons.mp hc with rfl | hcr
      · have hrest : ∀ k ∈ rest, f k = g k := by
          intro k hk
          exact hfg k (List.mem_cons_of_mem _ hk)
            (fun he => (List.nodup_cons.mp hnd).1 (he ▸ hk))
        simp only [List.map_cons, List.sum_cons, hfc,
          List.map_congr_left hrest]
        omega
      · have ha : f a = g a := hfg a (List.mem_cons_self a rest)
          (fun he => (List.nodup_cons.mp hnd).1 (he ▸ hcr))
        simp only [List.map_cons, List.sum_cons, ha,
          ih f g (List.nodup_cons.mp hnd).2 hcr
            (fun k hk => hfg k (List.mem_cons_of_mem a hk)) hfc]
        omega

theorem assignFolds_count (v : Nat) :
    ∀ (y : List String) (ks : List String) (t : String → List Nat),
      ks.Nodup → (∀ c ∈ y, c ∈ ks) →
      (∀ k ∈ ks, (t k).length = y.count k) →
      (assignFolds y t).count v =
        (ks.map (fun k => (t k).count v)).sum := by
  intro y
  induction y with
  | nil =>
      intro ks t _ _ hlen
      simp only [assignFolds, List.count_nil]
      symm
      apply List.sum_eq_zero
      intro x hx
      rcases List.mem_map.mp hx with ⟨k, hk, rfl⟩
      have : (t k).length = 0 := by simpa using hlen k hk
      rw [List.eq_nil_of_length_eq_zero this]
      rfl
  | cons c rest ih =>
      intro ks t hnd hcov hlen
      have hc : c ∈ ks := hcov c (List.mem_cons_self c rest)
      have htc : (t c).length = rest.count c + 1 := by
        rw [hlen c hc]
        simp [List.count_cons]
      match hm : t c with
      | [] => rw [hm] at htc; simp at htc
      | h :: tl =>
        rw [hm] at htc
        simp only [List.length_cons] at htc
        have htl : tl.length = rest.count c := by omega
        have step : assignFolds (c :: rest) t =
            h :: assignFolds rest
              (fun d => if d = c then (t c).tail else t d) := by
          simp [assignFolds, hm]
        rw [step, List.count_cons]
        rw [ih ks (fun d => if d = c then (t c).tail else t d)
          hnd (fun x hx => hcov x (List.mem_cons_of_mem c hx)) ?hlen2]
        case hlen2 =>
          intro k hk
          by_cases hkc : k = c
          · subst hkc
            simp [hm, htl]
          · simp only [hkc, if_false]
            rw [hlen k hk]
            simp [List.count_cons, Ne.symm hkc]
        have hupd := sum_map_update c (if h == v then 1 else 0) ks
          (fun k => (t k).count v)
          (fun k => (if k = c then (t c).tail else t k).count v)
          hnd hc ?off ?hct
        case off =>
          intro k _ hkc
          simp [hkc]
        case hct =>
          simp [hm, List.count_cons]
        omega

theorem sum_counts :
    ∀ (y ks : List String), ks.Nodup → (∀ c ∈ y, c ∈ ks) →
      (ks.map (fun k => y.count k)).sum = y.length := by
  intro y
  induction y with
  | nil =>
      intro ks _ _
      simp only [List.length_nil]
      apply List.sum_eq_zero
      intro x hx
      rcases List.mem_map.mp hx with ⟨k, _, rfl⟩
      simp
  | cons c rest ih =>
      intro ks hnd hcov
      have hc : c ∈ ks := hcov c (List.mem_cons_self c rest)
      have hupd := sum_map_update c 1 ks
        (fun k => (c :: rest).count k) (fun k => rest.count k) hnd hc ?off ?hct
      case off =>
        intro k _ hkc
        simp [List.count_cons, Ne.symm hkc]
      case hct =>
        simp [List.count_cons]
      rw [hupd, ih ks hnd (fun x hx => hcov x (List.mem_cons_of_mem c hx))]
      simp

theorem evensIn_le (o c : Nat) : evensIn o c ≤ c := by
  rcases Nat.mod_two_eq_zero_or_one o with h | h <;> simp [evensIn, h] <;> omega

theorem evensIn_add (o c r : Nat) :
    evensIn o c + evensIn (o + c) r = evensIn o (c + r) := by
  rcases Nat.mod_two_eq_zero_or_one o with h | h <;>
    rcases Nat.mod_two_eq_zero_or_one (o + c) with h2 | h2 <;>
      simp [evensIn, h, h2] <;> omega

theorem oddsIn_add (o c r : Nat) :
    (c - evensIn o c) + oddsIn (o + c) r = oddsIn o (c + r) := by
  rcases Nat.mod_two_eq_zero_or_one o with h | h <;>
    rcases Nat.mod_two_eq_zero_or_one (o + c) with h2 | h2 <;>
      simp [evensIn, oddsIn, h, h2] <;> omega

theorem shuffle01_count0 {shuffle : Nat → List Nat → List Nat}
    (hsh : ∀ k l, (shuffle k l).Perm l) (k a0 a1 : Nat) :
    (shuffle k (List.replicate a0 0 ++ List.replicate a1 1)).count 0 = a0 := by
  rw [(hsh k _).count_eq]
  simp [List.count_append, List.count_replicate]

theorem shuffle01_count1 {shuffle : Nat → List Nat → List Nat}
    (hsh : ∀ k l, (shuffle k l).Perm l) (k a0 a1 : Nat) :
    (shuffle k (List.replicate a0 0 ++ List.replicate a1 1)).count 1 = a1 := by
  rw [(hsh k _).count_eq]
  simp [List.count_append, List.count_replicate]

theorem allocFolds_keys (shuffle : Nat → List Nat → List Nat) :
    ∀ (cs : List (String × Nat)) (k o : Nat),
      (allocFolds shuffle k o cs).map Prod.fst = cs.map Prod.fst
  | [], _, _ => rfl
  | (cls, cnt) :: rest, k, o => by
      simp [allocFolds, allocFolds_keys shuffle rest]

theorem allocFolds_count0 {shuffle : Nat → List Nat → List Nat}
    (hsh : ∀ k l, (shuffle k l).Perm l) :
    ∀ (cs : List (String × Nat)) (k o : Nat),
      ((allocFolds shuffle k o cs).map (fun e => e.2.count 0)).sum =
        evensIn o ((cs.map Prod.snd).sum)
  | [], _, o => by
      rcases Nat.mod_two_eq_zero_or_one o with h | h <;>
        simp [allocFolds, evensIn, h]
  | (cls, cnt) :: rest, k, o => by
      simp only [allocFolds, List.map_cons, List.sum_cons,
        shuffle01_count0 hsh, List.map_cons, List.sum_cons,
        allocFolds_count0 hsh rest (k + 1) (o + cnt)]
      exact evensIn_add o cnt _

theorem allocFolds_count1 {shuffle : Nat → List Nat → List Nat}
    (hsh : ∀ k l, (shuffle k l).Perm l) :
    ∀ (cs : List (String × Nat)) (k o : Nat),
      ((allocFolds shuffle k o cs).map (fun e => e.2.count 1)).sum =
        oddsIn o ((cs.map Prod.snd).sum)
  | [], _, o => by
      rcases Nat.mod_two_eq_zero_or_one o with h | h <;>
        simp [allocFolds, oddsIn, h]
  | (cls, cnt) :: rest, k, o => by
      simp only [allocFolds, List.map_cons, List.sum_cons,
        shuffle01_count1 hsh,
        allocFolds_count1 hsh rest (k + 1) (o + cnt)]
      exact oddsIn_add o cnt _

theorem lookup_cons_self {β : Type} (c0 : String) (l0 : β)
    (rest : List (String × β)) :
    List.lookup c0 ((c0, l0) :: rest) = some l0 := by
  simp [List.lookup]

theorem lookup_cons_ne {β : Type} (c c0 : String) (l0 : β)
    (rest : List (String × β)) (h : c0 ≠ c) :
    List.lookup c ((c0, l0) :: rest) = List.lookup c rest := by
  have hb : (c == c0) = false := beq_eq_false_iff_ne.mpr (Ne.symm h)
  simp [List.lookup, hb]

theorem map_lookup_counts (v : Nat) :
    ∀ (al : List (String × List Nat)), (al.map Prod.fst).Nodup →
      (al.map Prod.fst).map (fun c => ((List.lookup c al).getD []).count v) =
        al.map (fun e => e.2.count v) := by
  intro al
  induction al with
  | nil => intro _; rfl
  | cons e rest ih =>
      intro hnd
      rcases e with ⟨c0, l0⟩
      simp only [List.map_cons, List.nodup_cons] at hnd
      simp only [List.map_cons]
      rw [lookup_cons_self]
      have htail : ∀ c ∈ rest.map Prod.fst,
          (fun c => ((List.lookup c ((c0, l0) :: rest)).getD []).count v) c =
          (fun c => ((List.lookup c rest).getD []).count v) c := by
        intro c hcm
        have hne : c0 ≠ c := fun he => hnd.1 (he ▸ hcm)
        simp only [lookup_cons_ne c c0 l0 rest hne]
      rw [List.map_congr_left htail, ih hnd.2]
      rfl

theorem allocFolds_lookup_length {shuffle : Nat → List Nat → List Nat}
    (hsh : ∀ k l, (shuffle k l).Perm l) :
    ∀ (cs : List (String × Nat)) (k o : Nat) (c : String) (cnt : Nat),
      (cs.map Prod.fst).Nodup → (c, cnt) ∈ cs →
      ((List.lookup c (allocFolds shuffle k o cs)).getD []).length = cnt := by
  intro cs
  induction cs with
  | nil => intro k o c cnt _ hm; exact absurd hm (List.not_mem_nil _)
  | cons e rest ih =>
      intro k o c cnt hnd hm
      rcases e with ⟨c0, cnt0⟩
      simp only [List.map_cons, List.nodup_cons] at hnd
      by_cases hcc : c0 = c
      · subst hcc
        have hcnt : cnt = cnt0 := by
          rcases List.mem_cons.mp hm with h | h
          · exact ((Prod.mk.injEq _ _ _ _).mp h.symm).2.symm
          · exact absurd (List.mem_map.mpr ⟨(c0, cnt), h, rfl⟩) hnd.1
        subst hcnt
        simp only [allocFolds]
        rw [lookup_cons_self]
        simp only [Option.getD_some]
        rw [(hsh k _).length_eq]
        have := evensIn_le o cnt
        simp only [List.length_append, List.length_replicate]
        omega
      · have hm2 : (c, cnt) ∈ rest := by
          rcases List.mem_cons.mp hm with h | h
          · exact absurd ((Prod.mk.injEq _ _ _ _).mp h.symm).1 hcc
          · exact h
        simp only [allocFolds]
        rw [lookup_cons_ne _ _ _ _ hcc]
        exact ih (k + 1) (o + cnt0) c cnt hnd.2 hm2

theorem allocFolds_lookup_mem01 {shuffle : Nat → List Nat → List Nat}
    (hsh : ∀ k l, (shuffle k l).Perm l) :
    ∀ (cs : List (String × Nat)) (k o : Nat) (c : String) (v : Nat),
      v ∈ (List.lookup c (allocFolds shuffle k o cs)).getD [] →
      v = 0 ∨ v = 1 := by
  intro cs
  induction cs with
  | nil => intro k o c v hv; simp [allocFolds, List.lookup] at hv
  | cons e rest ih =>
      intro k o c v hv
      rcases e with ⟨c0, cnt0⟩
      by_cases hcc : c0 = c
      · subst hcc
        simp only [allocFolds] at hv
        rw [lookup_cons_self] at hv
        simp only [Option.getD_some] at hv
        have := (hsh k _).mem_iff.mp hv
        rcases List.mem_append.mp this with h | h
        · exact Or.inl (List.eq_of_mem_replicate h)
        · exact Or.inr (List.eq_of_mem_replicate h)
      · simp only [allocFolds] at hv
        rw [lookup_cons_ne _ _ _ _ hcc] at hv
        exact ih (k + 1) (o + cnt0) c v hv

theorem assignFolds_mem01 :
    ∀ (y : List String) (t : String → List Nat),
      (∀ c v, v ∈ t c → v = 0 ∨ v = 1) →
      ∀ v ∈ assignFolds y t, v = 0 ∨ v = 1 := by
  intro y
  induction y with
  | nil => intro t _ v hv; simp [assignFolds] at hv
  | cons c rest ih =>
      intro t ht v hv
      simp only [assignFolds, List.mem_cons] at hv
      rcases hv with rfl | hv
      · match hm : t c with
        | [] => simp [hm]
        | h :: tl =>
            simp only [List.headD_cons]
            exact ht c h (hm ▸ List.mem_cons_self h tl)
      · refine ih _ ?_ v hv
        intro d w hw
        by_cases hdc : d = c
        · simp only [hdc, if_pos rfl] at hw
          exact ht c w (List.mem_of_mem_tail hw)
        · simp only [hdc, if_neg] at hw
          · exact ht d w hw

theorem makeTestFolds_length (shuffle : Nat → List Nat → List Nat)
    (y : List String) : (makeTestFolds shuffle y).length = y.length := by
  simp [makeTestFolds, assignFolds_length]

theorem makeTestFolds_count0 {shuffle : Nat → List Nat → List Nat}
    (hsh : ∀ k l, (shuffle k l).Perm l) (y : List String) :
    (makeTestFolds shuffle y).count 0 = evensIn 0 y.length := by
  have hnd : (uniqueSorted y).Nodup := uniqueSorted_nodup y
  have hkeys : ((uniqueSorted y).map
      (fun c => (c, y.count c))).map Prod.fst = uniqueSorted y := by
    rw [List.map_map]
    have hid : (Prod.fst ∘ fun c => (c, y.count c)) =
        fun c : String => c := rfl
    rw [hid, List.map_id']
  have halloc : (allocFolds shuffle 0 0 ((uniqueSorted y).map
      (fun c => (c, y.count c)))).map Prod.fst = uniqueSorted y := by
    rw [allocFolds_keys]; exact hkeys
  have hcov : ∀ c ∈ y, c ∈ uniqueSorted y :=
    fun c hc => (mem_uniqueSorted y c).mpr hc
  simp only [makeTestFolds]
  rw [assignFolds_count 0 y (uniqueSorted y) _ hnd hcov ?hlen]
  case hlen =>
    intro k hk
    exact allocFolds_lookup_length hsh _ 0 0 k (y.count k)
      (by rw [hkeys]; exact hnd) (List.mem_map.mpr ⟨k, hk, rfl⟩)
  have hbridge := map_lookup_counts 0
    (allocFolds shuffle 0 0 ((uniqueSorted y).map (fun c => (c, y.count c))))
    (by rw [halloc]; exact hnd)
  rw [halloc] at hbridge
  rw [hbridge, allocFolds_count0 hsh]
  have hsnd : (((uniqueSorted y).map (fun c => (c, y.count c))).map
      Prod.snd) = (uniqueSorted y).map (fun c => y.count c) := by
    simp
  rw [hsnd, sum_counts y (uniqueSorted y) hnd hcov]

theorem makeTestFolds_count1 {shuffle : Nat → List Nat → List Nat}
    (hsh : ∀ k l, (shuffle k l).Perm l) (y : List String) :
    (makeTestFolds shuffle y).count 1 = oddsIn 0 y.length := by
  have hnd : (uniqueSorted y).Nodup := uniqueSorted_nodup y
  have hkeys : ((uniqueSorted y).map
      (fun c => (c, y.count c))).map Prod.fst = uniqueSorted y := by
    rw [List.map_map]
    have hid : (Prod.fst ∘ fun c => (c, y.count c)) =
        fun c : String => c := rfl
    rw [hid, List.map_id']
  have halloc : (allocFolds shuffle 0 0 ((uniqueSorted y).map
      (fun c => (c, y.count c)))).map Prod.fst = uniqueSorted y := by
    rw [allocFolds_keys]; exact hkeys
  have hcov : ∀ c ∈ y, c ∈ uniqueSorted y :=
    fun c hc => (mem_uniqueSorted y c).mpr hc
  simp only [makeTestFolds]
  rw [assignFolds_count 1 y (uniqueSorted y) _ hnd hcov ?hlen]
  case hlen =>
    intro k hk
    exact allocFolds_lookup_length hsh _ 0 0 k (y.count k)
      (by rw [hkeys]; exact hnd) (List.mem_map.mpr ⟨k, hk, rfl⟩)
  have hbridge := map_lookup_counts 1
    (allocFolds shuffle 0 0 ((uniqueSorted y).map (fun c => (c, y.count c))))
    (by rw [halloc]; exact hnd)
  rw [halloc] at hbridge
  rw [hbridge, allocFolds_count1 hsh]
  have hsnd : (((uniqueSorted y).map (fun c => (c, y.count c))).map
      Prod.snd) = (uniqueSorted y).map (fun c => y.count c) := by
    simp
  rw [hsnd, sum_counts y (uniqueSorted y) hnd hcov]

theorem makeTestFolds_mem01 {shuffle : Nat → List Nat → List Nat}
    (hsh : ∀ k l, (shuffle k l).Perm l) (y : List String) :
    ∀ v ∈ makeTestFolds shuffle y, v = 0 ∨ v = 1 := by
  simp only [makeTestFolds]
  apply assignFolds_mem01
  intro c v hv
  exact allocFolds_lookup_mem01 hsh _ 0 0 c v hv

theorem split_parts (tf : List Nat) (n i : Nat) (hlen : tf.length = n)
    (hmem : ∀ v ∈ tf, v = 0 ∨ v = 1) (hi : i = 0 ∨ i = 1)
    (hc : 1 ≤ tf.count i) (hc' : 1 ≤ tf.count (1 - i)) :
    ((List.range n).filter (fun j => tf.getD j 0 != i)) ≠ [] ∧
    ((List.range n).filter (fun j => tf.getD j 0 == i)) ≠ [] ∧
    (∀ j ∈ (List.range n).filter (fun j => tf.getD j 0 != i),
        j ∉ (List.range n).filter (fun j => tf.getD j 0 == i)) ∧
    (∀ j < n, j ∈ (List.range n).filter (fun j => tf.getD j 0 != i) ∨
        j ∈ (List.range n).filter (fun j => tf.getD j 0 == i)) := by
  have hidx : ∀ v, 1 ≤ tf.count v → ∃ j, j < n ∧ tf.getD j 0 = v := by
    intro v hv
    have hmemv : v ∈ tf := List.count_pos_iff.mp hv
    obtain ⟨j, hj, hget⟩ := List.getElem_of_mem hmemv
    exact ⟨j, hlen ▸ hj, by rw [List.getD_eq_getElem tf 0 hj, hget]⟩
  refine ⟨?train, ?test, ?disj, ?part⟩
  case train =>
      obtain ⟨j, hj, hget⟩ := hidx (1 - i) hc'
      have hjm : j ∈ (List.range n).filter (fun j => tf.getD j 0 != i) := by
        rw [List.mem_filter]
        refine ⟨List.mem_range.mpr hj, ?_⟩
        rw [hget]
        rcases hi with rfl | rfl <;> simp
      exact List.ne_nil_of_mem hjm
  case test =>
      obtain ⟨j, hj, hget⟩ := hidx i hc
      have hjm : j ∈ (List.range n).filter (fun j => tf.getD j 0 == i) := by
        rw [List.mem_filter]
        refine ⟨List.mem_range.mpr hj, ?_⟩
        rw [hget]
        simp
      exact List.ne_nil_of_mem hjm
  case disj =>
      intro j hj hj2
      have h1 := List.of_mem_filter hj
      have h2 := List.of_mem_filter hj2
      simp only [bne_iff_ne, beq_iff_eq, ne_eq] at h1 h2
      exact h1 h2
  case part =>
      intro j hj
      have hjt : j < tf.length := hlen ▸ hj
      have hv := hmem tf[j] (List.getElem_mem hjt)
      have hget : tf.getD j 0 = tf[j] := List.getD_eq_getElem tf 0 hjt
      by_cases hvi : tf[j] = i
      · right
        rw [List.mem_filter]
        refine ⟨List.mem_range.mpr hj, ?_⟩
        rw [hget]
        simp [hvi]
      · left
        rw [List.mem_filter]
        refine ⟨List.mem_range.mpr hj, ?_⟩
        rw [hget]
        simp [hvi]

/-- C4 (amended): for a hits table with at least 2 distinct experiment
names, at least 4 rows, and at least one experiment occurring at least
twice, the two-fold stratified split `fit` performs (sklearn
`StratifiedKFold(n_splits=2, shuffle=True)` on the experiment-name column,
for any admissible seeded shuffle) succeeds and yields exactly two
(train, test) fold pairs, and in each pair both folds are non-empty and
disjoint and together cover all row indices.  The extra "one experiment
occurring at least twice" hypothesis is forced by the counterexample: when
every experiment name occurs exactly once, sklearn raises `ValueError`
instead of producing folds. -/
theorem claimC4_split_two_disjoint_nonempty_folds
    (shuffle : Nat → List Nat → List Nat)
    (hsh : ∀ k l, (shuffle k l).Perm l) (y : List String)
    (hcls : 2 ≤ (uniqueSorted y).length) (hrows : 4 ≤ y.length)
    (hbig : ∃ c ∈ y, 2 ≤ y.count c) :
    ∃ splits, stratifiedKFold2Split shuffle y = Except.ok splits ∧
      splits.length = 2 ∧
      ∀ p ∈ splits, p.1 ≠ [] ∧ p.2 ≠ [] ∧
        (∀ j ∈ p.1, j ∉ p.2) ∧
        (∀ j < y.length, j ∈ p.1 ∨ j ∈ p.2) := by
  obtain ⟨c, hcy, hc2⟩ := hbig
  have hall : ((uniqueSorted y).all (fun c => decide (y.count c < 2)))
      = false := by
    apply Bool.eq_false_iff.mpr
    intro hallt
    have := List.all_eq_true.mp hallt c ((mem_uniqueSorted y c).mpr hcy)
    simp at this
    omega
  have hn2 : ¬ (y.length < 2) := by omega
  have hlen : (makeTestFolds shuffle y).length = y.length :=
    makeTestFolds_length shuffle y
  have hmem01 := makeTestFolds_mem01 hsh y
  have hc0 : 1 ≤ (makeTestFolds shuffle y).count 0 := by
    rw [makeTestFolds_count0 hsh y]
    simp only [evensIn]
    simp
    omega
  have hc1 : 1 ≤ (makeTestFolds shuffle y).count 1 := by
    rw [makeTestFolds_count1 hsh y]
    simp only [oddsIn]
    simp
    omega
  refine ⟨[((List.range y.length).filter
              (fun j => (makeTestFolds shuffle y).getD j 0 != 0),
            (List.range y.length).filter
              (fun j => (makeTestFolds shuffle y).getD j 0 == 0)),
           ((List.range y.length).filter
              (fun j => (makeTestFolds shuffle y).getD j 0 != 1),
            (List.range y.length).filter
              (fun j => (makeTestFolds shuffle y).getD j 0 == 1))],
          ?_, rfl, ?_⟩
  · simp only [stratifiedKFold2Split]
    rw [if_neg hn2, if_neg (by simp [hall])]
    rfl
  · intro p hp
    have h0 := split_parts (makeTestFolds shuffle y) y.length 0 hlen
      hmem01 (Or.inl rfl) hc0 hc1
    have h1 := split_parts (makeTestFolds shuffle y) y.length 1 hlen
      hmem01 (Or.inr rfl) hc1 hc0
    rcases List.mem_cons.mp hp with rfl | hp2
    · exact h0
    · rcases List.mem_cons.mp hp2 with rfl | hp3
      · exact h1
      · exact absurd hp3 (List.not_mem_nil p)

/-- C4 witness: the amended claim applied to the concrete label vector
`a, a, a, b` with the identity shuffle. -/
theorem claimC4_witness :
    (∀ k l, (idShuffle k l).Perm l) ∧
    2 ≤ (uniqueSorted ["a", "a", "a", "b"]).length ∧
    (∃ splits,
      stratifiedKFold2Split idShuffle ["a", "a", "a", "b"] =
        Except.ok splits ∧
      splits.length = 2 ∧
      ∀ p ∈ splits, p.1 ≠ [] ∧ p.2 ≠ [] ∧
        (∀ j ∈ p.1, j ∉ p.2) ∧
        (∀ j < (4 : Nat), j ∈ p.1 ∨ j ∈ p.2)) := by
  refine ⟨fun k l => List.Perm.refl l, by decide, ?_⟩
  exact claimC4_split_two_disjoint_nonempty_folds idShuffle
    (fun k l => List.Perm.refl l) ["a", "a", "a", "b"]
    (by decide) (by decide) ⟨"a", by decide, by decide⟩

/-- C4 counterexample: a hits table with 4 rows and 4 distinct experiment
names (so at least 2 distinct names) on which the claim fails: every class
has a single member, sklearn's `StratifiedKFold` raises `ValueError`, and
`fit` propagates the error - no folds are produced at all. -/
theorem claimC4_counterexample :
    PresentationModel.fit semEmpty idShuffle m4 hits4 =
      Except.error "ValueError: n_splits=2 cannot be greater than the number of members in each class" ∧
    stratifiedKFold2Split idShuffle (expCol hits4) =
      Except.error "ValueError: n_splits=2 cannot be greater than the number of members in each class" := by
  constructor <;> rfl

/-! ### Lifecycle and construction claims -/

/-- C6: the Unfit-to-Fit lifecycle is enforced by every stateful
operation: `fit` on an already-fit model and `restore_fit` on an
already-fit model fail immediately with an assertion-style error (never a
silent no-op returning a model), and `predict_to_df`, `predict` and
`score_from_peptides_df` on an unfit model fail immediately. -/
theorem claimC6_lifecycle (sem : ExprSem)
    (shuffle : Nat → List Nat → List Nat) (m : PresentationModel)
    (hits_df : Table) (art : FitArtifact) (df2 : Table) (inc : Bool) :
    (m.has_been_fit = true →
      (PresentationModel.fit sem shuffle m hits_df).isOk = false ∧
      (m.restore_fit art).isOk = false) ∧
    (m.has_been_fit = false →
      (PresentationModel.predict_to_df sem m df2).isOk = false ∧
      (PresentationModel.predict sem m df2).isOk = false ∧
      (PresentationModel.score_from_peptides_df sem m df2 inc).isOk =
        false) := by
  constructor
  · intro hfit
    constructor
    · simp [PresentationModel.fit, hfit, Except.isOk, Except.toBool]
    · simp [PresentationModel.restore_fit, hfit, Except.isOk,
        Except.toBool]
  · intro hunfit
    refine ⟨?_, ?_, ?_⟩
    · simp [PresentationModel.predict_to_df, hunfit, Except.isOk,
        Except.toBool]
    · simp [PresentationModel.predict, hunfit, Except.isOk, Except.toBool]
    · simp [PresentationModel.score_from_peptides_df, hunfit,
        Except.isOk, Except.toBool]

/-- C6 witness: the lifecycle theorem applied to the concrete fit model
`m1` and the concrete unfit model `m4`. -/
theorem claimC6_witness :
    (m1.has_been_fit = true ∧
      (PresentationModel.fit semEmpty idShuffle m1 df10).isOk = false ∧
      (m1.restore_fit artOneFold).isOk = false) ∧
    (m4.has_been_fit = false ∧
      (PresentationModel.predict_to_df semEmpty m4 df10).isOk = false ∧
      (PresentationModel.predict semEmpty m4 df10).isOk = false ∧
      (PresentationModel.score_from_peptides_df semEmpty m4 df10
        true).isOk = false) := by
  have h1 := (claimC6_lifecycle semEmpty idShuffle m1 df10 artOneFold
    df10 true).1 rfl
  have h2 := (claimC6_lifecycle semEmpty idShuffle m4 df10 artOneFold
    df10 true).2 rfl
  exact ⟨⟨rfl, h1⟩, ⟨rfl, h2⟩⟩

theorem checkColumnsDisjoint_iff :
    ∀ (cms : List ComponentModel) (acc : List String),
      checkColumnsDisjoint acc cms = true ↔
      ((∀ cm ∈ cms, ∀ c ∈ cm.column_names, c ∉ acc) ∧
        List.Pairwise
          (fun a b => ∀ c ∈ a.column_names, c ∉ b.column_names) cms) := by
  intro cms
  induction cms with
  | nil => intro acc; simp [checkColumnsDisjoint]
  | cons cm rest ih =>
      intro acc
      by_cases hany :
          (cm.column_names.any (fun c => acc.contains c)) = true
      · simp only [checkColumnsDisjoint, hany, if_true]
        constructor
        · intro hfalse; exact absurd hfalse (by simp)
        · intro hrhs
          obtain ⟨c, hc, hcacc⟩ := List.any_eq_true.mp hany
          exact absurd (by simpa using hcacc : c ∈ acc)
            (hrhs.1 cm (List.mem_cons_self cm rest) c hc)
      · simp only [checkColumnsDisjoint, hany, Bool.false_eq_true,
          if_false]
        rw [ih (acc ++ cm.column_names)]
        have hhead : ∀ c ∈ cm.column_names, c ∉ acc := by
          intro c hc hcacc
          exact hany (List.any_eq_true.mpr
            ⟨c, hc, by simpa using hcacc⟩)
        constructor
        · rintro ⟨hall, hpw⟩
          refine ⟨?_, List.Pairwise.cons ?_ hpw⟩
          · intro cm2 hcm2 c hc
            rcases List.mem_cons.mp hcm2 with rfl | hcm2r
            · exact hhead c hc
            · intro hcacc
              exact hall cm2 hcm2r c hc (List.mem_append.mpr (Or.inl hcacc))
          · intro b hb c hc hcb
            exact hall b hb c hcb (List.mem_append.mpr (Or.inr hc))
        · rintro ⟨hall, hpw⟩
          refine ⟨?_, hpw.of_cons⟩
          intro cm2 hcm2 c hc hcapp
          rcases List.mem_append.mp hcapp with hacc | hcm
          · exact hall cm2 (List.mem_cons_of_mem cm hcm2) c hc hacc
          · exact List.rel_of_pairwise_cons hpw hcm2 c hcm hc

/-- C7: constructing a `PresentationModel` succeeds exactly when the
component models' declared output column names are pairwise disjoint;
any overlap between two models makes construction fail (an
`AssertionError` in `__init__`, before any fitting is attempted). -/
theorem claimC7_construction_disjointness (cms : List ComponentModel)
    (fe : List String) (ds : DecoyStrategy) (pred : SKPredictor)
    (rs : Nat) (es : Option Nat) :
    (PresentationModel.make cms fe ds pred rs es).isOk = true ↔
      List.Pairwise
        (fun a b => ∀ c ∈ a.column_names, c ∉ b.column_names) cms := by
  by_cases h : checkColumnsDisjoint [] cms = true
  · simp only [PresentationModel.make, h, if_true]
    constructor
    · intro _
      exact ((checkColumnsDisjoint_iff cms []).mp h).2
    · intro _
      rfl
  · simp only [PresentationModel.make, h, if_false]
    constructor
    · intro hfalse
      exact absurd hfalse (by simp [Except.isOk, Except.toBool])
    · intro hpw
      exact absurd ((checkColumnsDisjoint_iff cms []).mpr
        ⟨fun cm _ c _ hmem => absurd hmem (List.not_mem_nil c), hpw⟩) h

/-- C8: `restore_fit` on an unfit model fails fatally when the artifact's
fold count differs from the expected count (2 when the instance's
component models require fitting, 1 otherwise), whereas a mismatch of the
feature expressions alone only produces a logged warning and the
restoration proceeds to a fit model. -/
theorem claimC8_restore_mismatches (m : PresentationModel)
    (art : FitArtifact) (hunfit : m.has_been_fit = false) :
    (art.trained_component_model_fits.length ≠
        (if m.component_models_require_fitting then 2 else 1) →
      (m.restore_fit art).isOk = false) ∧
    (art.trained_component_model_fits.length =
        (if m.component_models_require_fitting then 2 else 1) →
      art.feature_expressions ≠ m.feature_expressions →
      ∃ m2 w, m.restore_fit art = Except.ok (m2, w) ∧ w ≠ [] ∧
        m2.has_been_fit = true) := by
  constructor
  · intro hlen
    simp [PresentationModel.restore_fit, hunfit, hlen, Except.isOk,
      Except.toBool]
  · intro hlen hfe
    have hok : m.restore_fit art = Except.ok
        ({ m with
            presentation_models_predictors :=
              some art.presentation_models_predictors
            fit_experiments := some art.fit_experiments
            trained_component_models :=
              some (art.trained_component_model_fits.map
                (fun fold => (m.component_models.zip fold).map
                  (fun p => p.1.clone_and_restore_fit p.2))) },
         ["Feature expressions restored from fit do not match those of this PresentationModel"]) := by
      simp only [PresentationModel.restore_fit, hunfit,
        Bool.false_eq_true, if_false, hlen, ne_eq, hfe,
        not_false_eq_true, if_true]
      simp
    exact ⟨_, _, hok, by simp, rfl⟩

/-- C8 witness: the restore-mismatch theorem applied to the concrete unfit
model `m4` (whose component model requires fitting, so two folds are
expected), a one-fold artifact (fatal) and a two-fold artifact with
mismatched feature expressions (warning only). -/
theorem claimC8_witness :
    m4.has_been_fit = false ∧
    (artOneFold.trained_component_model_fits.length ≠
        (if m4.component_models_require_fitting then 2 else 1) ∧
      (m4.restore_fit artOneFold).isOk = false) ∧
    (artTwoFold.trained_component_model_fits.length =
        (if m4.component_models_require_fitting then 2 else 1) ∧
      artTwoFold.feature_expressions ≠ m4.feature_expressions ∧
      ∃ m2 w, m4.restore_fit artTwoFold = Except.ok (m2, w) ∧ w ≠ [] ∧
        m2.has_been_fit = true) := by
  refine ⟨rfl, ⟨by decide, ?_⟩, ⟨by decide, by decide, ?_⟩⟩
  · exact (claimC8_restore_mismatches m4 artOneFold rfl).1 (by decide)
  · exact (claimC8_restore_mismatches m4 artTwoFold rfl).2 (by decide)
      (by decide)

/-! ### Missing-value handling (C2) -/

theorem evalFold_error (sem : ExprSem) (hd : Table) :
    ∀ (exprs : List String) (acc : Table),
      (∀ e ∈ exprs, (sem e hd).length = numRows hd) →
      (∃ e ∈ exprs, colHasNull (sem e hd) = true) →
      ∃ msg, exprs.foldlM (evalExprStep sem hd) acc = Except.error msg := by
  intro exprs
  induction exprs with
  | nil =>
      intro acc _ hnull
      obtain ⟨e, he, _⟩ := hnull
      exact absurd he (List.not_mem_nil e)
  | cons e rest ih =>
      intro acc hlen hnull
      rw [List.foldlM_cons]
      have hlene : (sem e hd).length = numRows hd :=
        hlen e (List.mem_cons_self e rest)
      cases hne : colHasNull (sem e hd) with
      | true =>
          refine ⟨"AssertionError: null values: " ++ e, ?_⟩
          have hstep : evalExprStep sem hd acc e =
              Except.error ("AssertionError: null values: " ++ e) := by
            simp only [evalExprStep]
            rw [if_neg (by rw [hlene]; exact fun hcon => hcon rfl)]
            rw [assert_no_null, if_pos hne]
            rfl
          rw [hstep]
          rfl
      | false =>
          have hstep : evalExprStep sem hd acc e =
              Except.ok (setCol acc e (sem e hd)) := by
            simp only [evalExprStep]
            rw [if_neg (by rw [hlene]; exact fun hcon => hcon rfl)]
            rw [assert_no_null, if_neg (by rw [hne]; simp)]
            rfl
          rw [hstep]
          have hnull2 : ∃ e2 ∈ rest, colHasNull (sem e2 hd) = true := by
            obtain ⟨e2, he2, hn2⟩ := hnull
            rcases List.mem_cons.mp he2 with rfl | he2r
            · rw [hne] at hn2; exact absurd hn2 (by simp)
            · exact ⟨e2, he2r, hn2⟩
          obtain ⟨msg, hmsg⟩ := ih (setCol acc e (sem e hd))
            (fun e2 he2 => hlen e2 (List.mem_cons_of_mem e he2)) hnull2
          exact ⟨msg, by simpa using hmsg⟩

theorem drop_nulls_no_null (df : Table) :
    ∀ col ∈ (drop_nulls_and_warn df).1, colHasNull col.2 = false := by
  intro col hcol
  simp only [drop_nulls_and_warn, iloc, List.mem_map] at hcol
  obtain ⟨c, hc, rfl⟩ := hcol
  rw [colHasNull, List.any_eq_false]
  intro x hx
  obtain ⟨j, hj, rfl⟩ := List.mem_map.mp hx
  have hjp := List.of_mem_filter hj
  simp only [Bool.not_eq_eq_eq_not, Bool.not_true, List.any_eq_false]
    at hjp
  have := hjp c hc
  simpa using this

theorem getCol_mem (df : Table) (n : String) (v : List Cell)
    (h : getCol df n = some v) : ∃ p ∈ df, p.2 = v := by
  rw [getCol, Option.map_eq_some'] at h
  obtain ⟨p, hp, hv⟩ := h
  exact ⟨p, List.mem_of_find?_eq_some hp, hv⟩

/-- C2 (amended): a missing value in any evaluated feature expression
makes the fitting path fail with an assertion-style error naming the
offending expression (the row is not dropped and no smaller training set
is produced), and missing values are never propagated into model fitting:
when `make_features_and_target` does succeed, neither the feature table
nor the target column contains a missing value. -/
theorem claimC2_missing_expression_values (sem : ExprSem)
    (m : PresentationModel) (hd : Table) :
    ((∀ e ∈ m.feature_expressions, (sem e hd).length = numRows hd) →
      (∃ e ∈ m.feature_expressions, colHasNull (sem e hd) = true) →
      (PresentationModel.make_features_and_target sem m hd).isOk =
        false) ∧
    (∀ x y, PresentationModel.make_features_and_target sem m hd =
        Except.ok (x, y) →
      (∀ col ∈ x, colHasNull col.2 = false) ∧ colHasNull y = false) := by
  constructor
  · intro hlen hnull
    obtain ⟨msg, hmsg⟩ := evalFold_error sem hd m.feature_expressions []
      hlen hnull
    have heval : evaluate_expressions sem m.feature_expressions hd =
        Except.error msg := by
      rw [evaluate_expressions, hmsg]
      rfl
    rw [PresentationModel.make_features_and_target]
    split
    · rfl
    · split
      · rfl
      · rw [heval]
        rfl
  · intro x y hok
    rw [PresentationModel.make_features_and_target] at hok
    split at hok
    · exact absurd hok (by simp)
    · split at hok
      · exact absurd hok (by simp)
      · cases heval : evaluate_expressions sem m.feature_expressions hd
          with
        | error msg =>
            rw [heval] at hok
            have h2 : (Except.error msg :
                Except String (Table × List Cell)) = Except.ok (x, y) :=
              hok
            exact absurd h2 (by simp)
        | ok df2 =>
            rw [heval] at hok
            have h2 : (Except.ok
                (delCol (drop_nulls_and_warn (setCol df2 "hit"
                    ((getCol hd "hit").getD []))).1 "hit",
                  (getCol (drop_nulls_and_warn (setCol df2 "hit"
                    ((getCol hd "hit").getD []))).1 "hit").getD []) :
                Except String (Table × List Cell)) = Except.ok (x, y) :=
              hok
            have hxy := (Except.ok.injEq _ _).mp h2
            rw [Prod.mk.injEq] at hxy
            obtain ⟨hx, hy⟩ := hxy
            constructor
            · intro col hcol
              rw [← hx] at hcol
              exact drop_nulls_no_null _ col
                (List.mem_of_mem_filter hcol)
            · rw [← hy]
              cases hget : getCol ((drop_nulls_and_warn (setCol df2
                  "hit" ((getCol hd "hit").getD []))).1) "hit" with
              | none => rfl
              | some v =>
                  simp only [Option.getD_some]
                  obtain ⟨p, hp, hv⟩ := getCol_mem _ _ _ hget
                  rw [← hv]
                  exact drop_nulls_no_null _ p hp

theorem claimC2_counterexample :
    numRows hdC2 = 2 ∧
    (semC2 "e1" hdC2).length = 2 ∧
    colHasNull (semC2 "e1" hdC2) = true ∧
    PresentationModel.make_features_and_target semC2 mC2 hdC2 =
      Except.error "AssertionError: null values: e1" := by
  exact ⟨rfl, rfl, rfl, rfl⟩

/-! ### Two-fold prediction averaging (C3) -/

theorem map_num_cellToNumD (l : List ℚ) :
    (l.map Cell.num).map cellToNumD = l := by
  rw [List.map_map]
  have hid : (cellToNumD ∘ Cell.num) = id := rfl
  rw [hid, List.map_id]

theorem meanCols_two (r1 r2 : List ℚ) :
    meanCols [r1, r2] = List.zipWith (fun a b => (a + b) / 2) r1 r2 := by
  simp only [meanCols, sumCols, List.length_cons, List.length_nil]
  rw [List.map_zipWith]
  norm_num

theorem predModelName_ne (s : String) :
    ("Prediction (Model " ++ s ++ ")") ≠ "Prediction" := by
  intro h
  have hlen := congrArg String.length h
  simp only [String.length_append] at hlen
  have h18 : ("Prediction (Model " : String).length = 18 := rfl
  have h1r : (")" : String).length = 1 := rfl
  have h10 : ("Prediction" : String).length = 10 := rfl
  rw [h18, h1r, h10] at hlen
  omega

/-- C3: for a model in the two-fold-fit state (two stored pairs of
component models and final predictors), every successful `predict` result
is the elementwise arithmetic mean of the two per-pair
probability-of-positive-class outputs on the same input. -/
theorem claimC3_two_fold_predict_mean (sem : ExprSem)
    (m : PresentationModel) (df : Table)
    (cs1 cs2 : List FittedComponentModel) (P1 P2 : FittedSKPredictor)
    (r : List ℚ)
    (ht : m.trained_component_models = some [cs1, cs2])
    (hp : m.presentation_models_predictors = some [P1, P2])
    (hr : PresentationModel.predict sem m df = Except.ok r) :
    ∃ r1 r2,
      predictPerPair sem m.feature_expressions (cs1, P1) df =
        Except.ok r1 ∧
      predictPerPair sem m.feature_expressions (cs2, P2) df =
        Except.ok r2 ∧
      r = List.zipWith (fun a b => (a + b) / 2) r1 r2 := by
  rw [PresentationModel.predict] at hr
  split at hr
  · exact absurd hr (by simp)
  · cases hdf : PresentationModel.predict_to_df sem m df with
    | error msg =>
        rw [hdf] at hr
        exact absurd (show (Except.error msg : Except String (List ℚ)) =
          Except.ok r from hr) (by simp)
    | ok tbl =>
        rw [hdf] at hr
        have hrv := (Except.ok.injEq _ _).mp
          (show (Except.ok (((getCol tbl "Prediction").getD []).map
            cellToNumD) : Except String (List ℚ)) = Except.ok r from hr)
        rw [PresentationModel.predict_to_df] at hdf
        split at hdf
        · exact absurd hdf (by simp)
        · split at hdf
          · exact absurd hdf (by simp)
          · split at hdf
            · exact absurd hdf (by simp)
            · simp only [ht, hp, Option.getD_some] at hdf
              rw [if_neg (by simp)] at hdf
              simp only [List.zip_cons_cons, List.zip_nil_right,
                List.mapM_cons, List.mapM_nil] at hdf
              cases h1 : predictPerPair sem m.feature_expressions
                  (cs1, P1) df with
              | error e1 =>
                  rw [h1] at hdf
                  exact absurd (show (Except.error e1 :
                    Except String Table) = Except.ok tbl from hdf)
                    (by simp)
              | ok r1 =>
                  rw [h1] at hdf
                  cases h2 : predictPerPair sem m.feature_expressions
                      (cs2, P2) df with
                  | error e2 =>
                      rw [h2] at hdf
                      exact absurd (show (Except.error e2 :
                        Except String Table) = Except.ok tbl from hdf)
                        (by simp)
                  | ok r2 =>
                      rw [h2] at hdf
                      have h3 : (Except.ok
                          ([("Prediction (Model " ++
                              toString ((0 : Nat) + 1) ++ ")",
                             r1.map Cell.num),
                            ("Prediction (Model " ++
                              toString ((1 : Nat) + 1) ++ ")",
                             r2.map Cell.num),
                            ("Prediction",
                              (meanCols [r1, r2]).map Cell.num)] :
                            Table) : Except String Table) =
                          Except.ok tbl := hdf
                      have htbl := (Except.ok.injEq _ _).mp h3
                      refine ⟨r1, r2, rfl, rfl, ?_⟩
                      rw [← hrv, ← htbl]
                      have hkey : getCol
                          ([("Prediction (Model " ++
                              toString ((0 : Nat) + 1) ++ ")",
                             r1.map Cell.num),
                            ("Prediction (Model " ++
                              toString ((1 : Nat) + 1) ++ ")",
                             r2.map Cell.num),
                            ("Prediction",
                              (meanCols [r1, r2]).map Cell.num)] :
                            Table) "Prediction" =
                          some ((meanCols [r1, r2]).map Cell.num) := by
                        rw [getCol,
                          List.find?_cons_of_neg _
                            (by simp [predModelName_ne]),
                          List.find?_cons_of_neg _
                            (by simp [predModelName_ne]),
                          List.find?_cons_of_pos _ (by simp)]
                        rfl
                      rw [hkey, Option.getD_some, map_num_cellToNumD,
                        meanCols_two]

/-- C3 witness: the two-fold averaging theorem applied to the concrete
two-fold-fit model `m3` on the one-row table `df1`. -/
theorem claimC3_witness :
    m3.trained_component_models = some [[], []] ∧
    m3.presentation_models_predictors = some [probaA, probaB] ∧
    ∃ r, PresentationModel.predict semEmpty m3 df1 = Except.ok r ∧
      ∃ r1 r2,
        predictPerPair semEmpty m3.feature_expressions ([], probaA) df1 =
          Except.ok r1 ∧
        predictPerPair semEmpty m3.feature_expressions ([], probaB) df1 =
          Except.ok r2 ∧
        r = List.zipWith (fun a b => (a + b) / 2) r1 r2 := by
  obtain ⟨r, hr⟩ : ∃ r, PresentationModel.predict semEmpty m3 df1 =
      Except.ok r := ⟨_, rfl⟩
  exact ⟨rfl, rfl, r, hr,
    claimC3_two_fold_predict_mean semEmpty m3 df1 [] [] probaA probaB r
      rfl rfl hr⟩

/-! ### Scoring mutates its input (C10) -/

/-- C10: `score_from_peptides_df` mutates its input: every successful call
writes the model's predictions into the caller's frame as a `prediction`
column (the pandas column assignment `peptides_df["prediction"] = ...` on
line 395 updates the caller's object in place; the returned table is that
mutated frame).  When the input had no `prediction` column, the table
after scoring is the input extended by the new column, and is therefore
not equal to the input. -/
theorem claimC10_score_mutates_input (sem : ExprSem)
    (m : PresentationModel) (df : Table) (inc : Bool) (r : ScoreResult)
    (t : Table)
    (hok : PresentationModel.score_from_peptides_df sem m df inc =
      Except.ok (r, t))
    (hnp : hasCol df "prediction" = false) :
    (∃ preds, PresentationModel.predict sem m df = Except.ok preds ∧
      t = setCol df "prediction" (preds.map Cell.num) ∧
      t = df ++ [("prediction", preds.map Cell.num)]) ∧
    hasCol t "prediction" = true ∧ t ≠ df := by
  rw [PresentationModel.score_from_peptides_df] at hok
  split at hok
  · exact absurd hok (by simp)
  · split at hok
    · exact absurd hok (by simp)
    · split at hok
      · exact absurd hok (by simp)
      · split at hok
        · exact absurd hok (by simp)
        · cases hpred : PresentationModel.predict sem m df with
          | error msg =>
              rw [hpred] at hok
              exact absurd (show (Except.error msg :
                Except String (ScoreResult × Table)) =
                Except.ok (r, t) from hok) (by simp)
          | ok preds =>
              rw [hpred] at hok
              have ht : setCol df "prediction" (preds.map Cell.num) =
                  t := by
                cases inc with
                | true =>
                    exact congrArg
                      (fun e : Except String (ScoreResult × Table) =>
                        match e with
                        | Except.ok p => p.2
                        | Except.error _ => df) hok
                | false =>
                    exact congrArg
                      (fun e : Except String (ScoreResult × Table) =>
                        match e with
                        | Except.ok p => p.2
                        | Except.error _ => df) hok
              refine ⟨⟨preds, rfl, ht.symm, ?_⟩, ?_, ?_⟩
              · rw [← ht, setCol_of_not_hasCol df _ _ hnp]
              · rw [← ht]
                exact hasCol_setCol_self df _ _
              · rw [← ht, setCol_of_not_hasCol df _ _ hnp]
                intro he
                have hlen := congrArg List.length he
                simp at hlen

/-- C10 witness: the mutation theorem applied to the concrete fit model
`m1` on the zero-row table `df0` (which has no `prediction` column). -/
theorem claimC10_witness :
    hasCol df0 "prediction" = false ∧
    ∃ r t, PresentationModel.score_from_peptides_df semEmpty m1 df0
        true = Except.ok (r, t) ∧
      (∃ preds, PresentationModel.predict semEmpty m1 df0 =
          Except.ok preds ∧
        t = setCol df0 "prediction" (preds.map Cell.num) ∧
        t = df0 ++ [("prediction", preds.map Cell.num)]) ∧
      hasCol t "prediction" = true ∧ t ≠ df0 := by
  obtain ⟨rt, hok⟩ : ∃ rt,
      PresentationModel.score_from_peptides_df semEmpty m1 df0 true =
        Except.ok rt := ⟨_, rfl⟩
  exact ⟨rfl, rt.1, rt.2, hok,
    claimC10_score_mutates_input semEmpty m1 df0 true rt.1 rt.2 hok rfl⟩

/-- C2 witness: the amended missing-value theorem applied to the concrete
model `mC2`, semantics `semC2` and two-row table `hdC2`. -/
theorem claimC2_witness :
    (∀ e ∈ mC2.feature_expressions,
      (semC2 e hdC2).length = numRows hdC2) ∧
    (∃ e ∈ mC2.feature_expressions, colHasNull (semC2 e hdC2) = true) ∧
    (PresentationModel.make_features_and_target semC2 mC2 hdC2).isOk =
      false := by
  refine ⟨by decide, by decide, ?_⟩
  exact (claimC2_missing_expression_values semC2 mC2 hdC2).1 (by decide)
    (by decide)

/-! ### No-leakage (C5) -/

theorem find?_append_left {α : Type} (p : α → Bool) :
    ∀ (l1 l2 : List α) (x : α), l1.find? p = some x →
      (l1 ++ l2).find? p = some x := by
  intro l1
  induction l1 with
  | nil => intro l2 x h; simp at h
  | cons a rest ih =>
      intro l2 x h
      cases hp : p a with
      | true =>
          rw [List.find?_cons_of_pos _ hp] at h
          simpa [List.find?_cons_of_pos _ hp] using h
      | false =>
          rw [List.find?_cons_of_neg _ (by simp [hp])] at h
          rw [List.cons_append,
            List.find?_cons_of_neg _ (by simp [hp])]
          exact ih l2 x h

theorem find?_map_keyed (t : Table) (f : String × List Cell → List Cell)
    (n : String) :
    (t.map (fun c => (c.1, f c))).find? (fun c => c.1 == n) =
      (t.find? (fun c => c.1 == n)).map (fun c => (c.1, f c)) := by
  induction t with
  | nil => rfl
  | cons c rest ih =>
      by_cases hc : c.1 = n
      · rw [List.map_cons, List.find?_cons_of_pos _ (by simp [hc]),
          List.find?_cons_of_pos _ (by simp [hc])]
        rfl
      · rw [List.map_cons, List.find?_cons_of_neg _ (by simp [hc]),
          List.find?_cons_of_neg _ (by simp [hc])]
        exact ih

theorem getCol_concat_left (t1 t2 : Table) (n : String) (v : List Cell)
    (h : getCol t1 n = some v) :
    getCol (concatTables t1 t2) n =
      some (v ++
        ((getCol t2 n).getD (List.replicate (numRows t2) Cell.null))) := by
  rw [getCol, Option.map_eq_some'] at h
  obtain ⟨p, hp, hv⟩ := h
  have hkey : p.1 = n := by simpa using List.find?_some hp
  rw [getCol, concatTables]
  rw [find?_append_left _ _ _ _
    (by rw [find?_map_keyed]; rw [hp]; rfl)]
  simp only [Option.map_some]
  rw [hkey, hv]
  rfl

theorem hit_col_mhd (h : Table) (ds : DecoyStrategy) :
    ∃ n2, getCol (make_hits_and_decoys_df h ds) "hit" =
      some (List.replicate (numRows h) (Cell.num 1) ++
            List.replicate n2 (Cell.num 0)) := by
  rw [make_hits_and_decoys_df]
  refine ⟨numRows (ds.decoys (setCol h "hit"
    (List.replicate (numRows h) (Cell.num 1)))), ?_⟩
  rw [getCol_concat_left _ _ _ _ (getCol_setCol_self _ _ _)]
  rw [getCol_setCol_self]
  rfl

theorem getD_rep_lt {α : Type} (m j : Nat) (x d : α) (hj : j < m) :
    (List.replicate m x).getD j d = x := by
  rw [List.getD_eq_getElem _ _ (by simpa using hj)]
  exact List.getElem_replicate _ _

theorem getD_append_ge {α : Type} (l1 l2 : List α) (j : Nat) (d : α)
    (h : l1.length ≤ j) :
    (l1 ++ l2).getD j d = l2.getD (j - l1.length) d := by
  induction l1 generalizing j with
  | nil => simp
  | cons a rest ih =>
      match j with
      | 0 => simp at h
      | j + 1 =>
          simp only [List.cons_append, List.getD_cons_succ,
            List.length_cons]
          rw [ih j (by simpa using h)]
          congr 1
          omega

theorem filter_rep_hit (a b : Nat) :
    (List.range (a + b)).filter
      (fun j => (List.replicate a (Cell.num 1) ++
        List.replicate b (Cell.num 0)).getD j Cell.null ==
        Cell.num 1) = List.range a := by
  rw [List.range_add, List.filter_append]
  have h1 : (List.range a).filter
      (fun j => (List.replicate a (Cell.num 1) ++
        List.replicate b (Cell.num 0)).getD j Cell.null ==
        Cell.num 1) = List.range a := by
    apply List.filter_eq_self.mpr
    intro j hj
    have hja : j < a := List.mem_range.mp hj
    rw [List.getD_append _ _ _ _ (by simpa using hja),
      getD_rep_lt a j _ _ hja]
    simp
  have h2 : (((List.range b).map (a + ·)).filter
      (fun j => (List.replicate a (Cell.num 1) ++
        List.replicate b (Cell.num 0)).getD j Cell.null ==
        Cell.num 1)) = [] := by
    apply List.filter_eq_nil_iff.mpr
    intro x hx
    obtain ⟨i, hi, rfl⟩ := List.mem_map.mp hx
    have hib : i < b := List.mem_range.mp hi
    have hgd : (List.replicate a (Cell.num 1) ++
        List.replicate b (Cell.num 0)).getD (a + i) Cell.null =
        Cell.num 0 := by
      rw [getD_append_ge _ _ _ _ (by simp)]
      have hsub : a + i - (List.replicate a (Cell.num 1)).length = i := by
        simp
      rw [hsub, getD_rep_lt b i _ _ hib]
    rw [hgd]
    simp
  rw [h1, h2, List.append_nil]

theorem hitRowIndices_mhd (h : Table) (ds : DecoyStrategy) :
    hitRowIndices (make_hits_and_decoys_df h ds) =
      List.range (numRows h) := by
  obtain ⟨n2, hcol⟩ := hit_col_mhd h ds
  rw [hitRowIndices, hcol]
  simp only [Option.getD_some, List.length_append,
    List.length_replicate]
  exact filter_rep_hit (numRows h) n2

theorem numRows_iloc (t : Table) (idxs : List Nat) (h : t ≠ []) :
    numRows (iloc t idxs) = idxs.length := by
  match t with
  | [] => exact absurd rfl h
  | c :: rest => simp [iloc, numRows]

theorem filter_ne_eq_disjoint (tf : List Nat) (n i : Nat) :
    ∀ j ∈ (List.range n).filter (fun j => tf.getD j 0 != i),
      j ∉ (List.range n).filter (fun j => tf.getD j 0 == i) := by
  intro j hj hj2
  have h1 := List.of_mem_filter hj
  have h2 := List.of_mem_filter hj2
  simp only [bne_iff_ne, beq_iff_eq, ne_eq] at h1 h2
  exact h1 h2

/-- C5: in two-fold fitting mode there is no leakage: for every
(train, test) fold pair the stratified split yields, the train indices
(the hit rows on which the component models are clone-and-fit) are
disjoint from the test indices, and the hit rows of the hits-and-decoys
frame built from the test fold - the rows the fitted component models are
asked to predict on when the fold's final predictor is trained - are
exactly the rows selected by the test fold indices (padded decoy rows are
labelled 0, and when the hits table is non-empty the test selection has
one row per test index). -/
theorem claimC5_no_leakage (shuffle : Nat → List Nat → List Nat)
    (y : List String) (splits : List (List Nat × List Nat))
    (hok : stratifiedKFold2Split shuffle y = Except.ok splits) :
    ∀ p ∈ splits,
      (∀ j ∈ p.1, j ∉ p.2) ∧
      (∀ (hits_df : Table) (ds : DecoyStrategy),
        hitRowIndices (make_hits_and_decoys_df (iloc hits_df p.2) ds) =
          List.range (numRows (iloc hits_df p.2)) ∧
        (hits_df ≠ [] → numRows (iloc hits_df p.2) = p.2.length)) := by
  rw [stratifiedKFold2Split] at hok
  split at hok
  · exact absurd hok (by simp)
  · split at hok
    · exact absurd hok (by simp)
    · have hsp := (Except.ok.injEq _ _).mp hok
      intro p hp
      rw [← hsp] at hp
      simp only [List.map_cons, List.map_nil, List.mem_cons,
        List.not_mem_nil, or_false] at hp
      have hgen : ∀ (i : Nat),
          p = ((List.range y.length).filter
                (fun j => (makeTestFolds shuffle y).getD j 0 != i),
               (List.range y.length).filter
                (fun j => (makeTestFolds shuffle y).getD j 0 == i)) →
          (∀ j ∈ p.1, j ∉ p.2) ∧
          (∀ (hits_df : Table) (ds : DecoyStrategy),
            hitRowIndices
              (make_hits_and_decoys_df (iloc hits_df p.2) ds) =
              List.range (numRows (iloc hits_df p.2)) ∧
            (hits_df ≠ [] →
              numRows (iloc hits_df p.2) = p.2.length)) := by
        intro i hpi
        subst hpi
        refine ⟨filter_ne_eq_disjoint _ _ _, ?_⟩
        intro hits_df ds
        refine ⟨hitRowIndices_mhd _ ds, ?_⟩
        intro hne
        rw [numRows_iloc hits_df _ hne]
      rcases hp with hp | hp
      · exact hgen 0 hp
      · exact hgen 1 hp

/-- C5 witness: the no-leakage theorem applied to the concrete split of
the label vector `a, a, a, b` with the identity shuffle. -/
theorem claimC5_witness :
    stratifiedKFold2Split idShuffle ["a", "a", "a", "b"] =
      Except.ok [([2, 3], [0, 1]), ([0, 1], [2, 3])] ∧
    ∀ p ∈ [([2, 3], [0, 1]), ([0, 1], [2, 3])],
      (∀ j ∈ p.1, j ∉ p.2) ∧
      (∀ (hits_df : Table) (ds : DecoyStrategy),
        hitRowIndices (make_hits_and_decoys_df (iloc hits_df p.2) ds) =
          List.range (numRows (iloc hits_df p.2)) ∧
        (hits_df ≠ [] → numRows (iloc hits_df p.2) = p.2.length)) := by
  have hok : stratifiedKFold2Split idShuffle ["a", "a", "a", "b"] =
      Except.ok [([2, 3], [0, 1]), ([0, 1], [2, 3])] := by rfl
  exact ⟨hok, claimC5_no_leakage idShuffle _ _ hok⟩

/-! ### Get/restore round trip (C9) -/

theorem foldlM_predict_congr (df : Table) :
    ∀ (cs1 cs2 : List FittedComponentModel) (acc : Table),
      cs1.map (fun c => c.predict) = cs2.map (fun c => c.predict) →
      cs1.foldlM
        (fun acc cm =>
          (cm.predict df).foldlM
            (fun acc2 cv => do
              assert_no_null cv.2 cv.1
              Except.ok (setCol acc2 cv.1 cv.2)) acc)
        acc =
      cs2.foldlM
        (fun acc cm =>
          (cm.predict df).foldlM
            (fun acc2 cv => do
              assert_no_null cv.2 cv.1
              Except.ok (setCol acc2 cv.1 cv.2)) acc)
        acc := by
  intro cs1
  induction cs1 with
  | nil =>
      intro cs2 acc h
      have h2 : cs2 = [] := by
        cases cs2 with
        | nil => rfl
        | cons b r => simp at h
      rw [h2]
  | cons c1 r1 ih =>
      intro cs2 acc h
      cases cs2 with
      | nil => simp at h
      | cons c2 r2 =>
          simp only [List.map_cons, List.cons.injEq] at h
          simp only [List.foldlM_cons]
          rw [show c1.predict = c2.predict from h.1]
          cases hstep : (c2.predict df).foldlM
              (fun acc2 cv => do
                assert_no_null cv.2 cv.1
                Except.ok (setCol acc2 cv.1 cv.2)) acc with
          | error e => rfl
          | ok acc2 => exact ih r2 acc2 h.2

theorem buildComponentDf_congr (cs1 cs2 : List FittedComponentModel)
    (df : Table)
    (h : cs1.map (fun c => c.predict) = cs2.map (fun c => c.predict)) :
    buildComponentDf cs1 df = buildComponentDf cs2 df :=
  foldlM_predict_congr df cs1 cs2 [] h

theorem predictPerPair_congr (sem : ExprSem) (fe : List String)
    (df : Table) (cs1 cs2 : List FittedComponentModel)
    (P : FittedSKPredictor)
    (h : cs1.map (fun c => c.predict) = cs2.map (fun c => c.predict)) :
    predictPerPair sem fe (cs1, P) df = predictPerPair sem fe (cs2, P) df := by
  rw [predictPerPair, predictPerPair]
  rw [show buildComponentDf cs1 df = buildComponentDf cs2 df from
    buildComponentDf_congr cs1 cs2 df h]

theorem mapM_pairs_congr (sem : ExprSem) (fe : List String) (df : Table) :
    ∀ (t1 t2 : List (List FittedComponentModel))
      (ps : List FittedSKPredictor),
      List.Forall₂ (fun a b =>
        a.map (fun c => c.predict) = b.map (fun c => c.predict)) t1 t2 →
      (t1.zip ps).mapM (fun pair => predictPerPair sem fe pair df) =
      (t2.zip ps).mapM (fun pair => predictPerPair sem fe pair df) := by
  intro t1
  induction t1 with
  | nil =>
      intro t2 ps h
      cases h
      rfl
  | cons a r1 ih =>
      intro t2 ps h
      cases h with
      | cons hab htail =>
          cases ps with
          | nil => rfl
          | cons P ps2 =>
              rename_i b r2
              simp only [List.zip_cons_cons, List.mapM_cons]
              rw [predictPerPair_congr sem fe df a b P hab]
              exact congrArg
                (fun z => predictPerPair sem fe (b, P) df >>=
                  fun x => z >>= fun xs => pure (x :: xs))
                (ih r2 ps2 htail)

theorem forall₂_map_self {α : Type} {R : α → α → Prop} (f : α → α) :
    ∀ (l : List α), (∀ x ∈ l, R (f x) x) → List.Forall₂ R (l.map f) l := by
  intro l
  induction l with
  | nil => intro _; exact List.Forall₂.nil
  | cons a rest ih =>
      intro h
      exact List.Forall₂.cons (h a (List.mem_cons_self a rest))
        (ih (fun x hx => h x (List.mem_cons_of_mem a hx)))

theorem restored_fold_predicts :
    ∀ (cs : List ComponentModel) (fold : List FittedComponentModel),
      cs.length = fold.length →
      (∀ p ∈ cs.zip fold,
        (p.1.clone_and_restore_fit p.2.get_fit).predict = p.2.predict) →
      ((cs.zip (fold.map (fun c => c.get_fit))).map
          (fun p => p.1.clone_and_restore_fit p.2)).map
        (fun c => c.predict) = fold.map (fun c => c.predict) := by
  intro cs
  induction cs with
  | nil =>
      intro fold hlen _
      have h2 : fold = [] :=
        List.eq_nil_of_length_eq_zero (by simpa using hlen.symm)
      rw [h2]
      rfl
  | cons c cr ih =>
      intro fold hlen hcon
      cases fold with
      | nil => simp at hlen
      | cons f fr =>
          simp only [List.map_cons, List.zip_cons_cons, List.map_cons]
          rw [hcon (c, f) (by simp [List.zip_cons_cons]),
            ih fr (by simpa using hlen)
              (fun p hp => hcon p
                (by simp only [List.zip_cons_cons, List.mem_cons]
                    exact Or.inr hp))]

theorem predict_to_df_congr (sem : ExprSem) (ma mb : PresentationModel)
    (df : Table)
    (hfe : ma.feature_expressions = mb.feature_expressions)
    (hfit : ma.has_been_fit = mb.has_been_fit)
    (hpred : ma.presentation_models_predictors.getD [] =
      mb.presentation_models_predictors.getD [])
    (htr : List.Forall₂ (fun a b =>
        a.map (fun c => c.predict) = b.map (fun c => c.predict))
      (ma.trained_component_models.getD [])
      (mb.trained_component_models.getD [])) :
    PresentationModel.predict_to_df sem ma df =
      PresentationModel.predict_to_df sem mb df := by
  rw [PresentationModel.predict_to_df, PresentationModel.predict_to_df,
    hfe, hfit, hpred]
  simp only [ne_eq]
  rw [List.Forall₂.length_eq htr]
  rw [mapM_pairs_congr sem mb.feature_expressions df _ _
    (mb.presentation_models_predictors.getD []) htr]

/-- C9: for every fit model `m` and every freshly constructed unfit model
`m2` with identical configuration (same component models, feature
expressions and fitting-requirement flag), whose stored fold count matches
the expected one and whose component models satisfy the serialization
contract (restoring a component model from its own serialized fit yields a
model with the same predictions), `restore_fit` on `m2` with the artifact
returned by `m`'s `get_fit` succeeds and yields a model whose `predict`
output equals `m`'s on every input table. -/
theorem claimC9_get_restore_roundtrip (sem : ExprSem)
    (m m2 : PresentationModel)
    (hfit : m.has_been_fit = true)
    (hunfit : m2.has_been_fit = false)
    (hcm : m2.component_models = m.component_models)
    (hfe : m2.feature_expressions = m.feature_expressions)
    (hrq : m2.component_models_require_fitting =
      m.component_models_require_fitting)
    (hfold : (m.trained_component_models.getD []).length =
      (if m.component_models_require_fitting then 2 else 1))
    (hpl : ∀ fold ∈ m.trained_component_models.getD [],
      m.component_models.length = fold.length)
    (hcontract : ∀ fold ∈ m.trained_component_models.getD [],
      ∀ p ∈ m.component_models.zip fold,
        (p.1.clone_and_restore_fit p.2.get_fit).predict = p.2.predict) :
    ∃ art mr w, PresentationModel.get_fit m = Except.ok art ∧
      PresentationModel.restore_fit m2 art = Except.ok (mr, w) ∧
      ∀ df, PresentationModel.predict sem mr df =
        PresentationModel.predict sem m df := by
  have hart : PresentationModel.get_fit m = Except.ok
      { trained_component_model_fits :=
          (m.trained_component_models.getD []).map
            (fun models => models.map (fun cm => cm.get_fit))
        presentation_models_predictors :=
          m.presentation_models_predictors.getD []
        fit_experiments := m.fit_experiments.getD []
        feature_expressions := m.feature_expressions } := by
    simp only [PresentationModel.get_fit, hfit, not_true_eq_false, if_false]
  have hres : PresentationModel.restore_fit m2
      { trained_component_model_fits :=
          (m.trained_component_models.getD []).map
            (fun models => models.map (fun cm => cm.get_fit))
        presentation_models_predictors :=
          m.presentation_models_predictors.getD []
        fit_experiments := m.fit_experiments.getD []
        feature_expressions := m.feature_expressions } = Except.ok
      ({ m2 with
          presentation_models_predictors :=
            some (m.presentation_models_predictors.getD [])
          fit_experiments := some (m.fit_experiments.getD [])
          trained_component_models :=
            some (((m.trained_component_models.getD []).map
                (fun models => models.map (fun cm => cm.get_fit))).map
              (fun fold => (m2.component_models.zip fold).map
                (fun p => p.1.clone_and_restore_fit p.2))) },
       []) := by
    simp only [PresentationModel.restore_fit, hunfit, Bool.false_eq_true,
      if_false, hfe, ne_eq, not_true_eq_false, List.length_map, hfold, hrq,
      not_false_eq_true, if_true]
  have hcm2 : ∀ fold ∈ m.trained_component_models.getD [],
      ((m2.component_models.zip (fold.map (fun cm => cm.get_fit))).map
          (fun p => p.1.clone_and_restore_fit p.2)).map
        (fun c => c.predict) = fold.map (fun c => c.predict) := by
    intro fold hf
    rw [hcm]
    exact restored_fold_predicts m.component_models fold (hpl fold hf)
      (hcontract fold hf)
  have hdm : ((m.trained_component_models.getD []).map
        (fun models => models.map (fun cm => cm.get_fit))).map
      (fun fold => (m2.component_models.zip fold).map
        (fun p => p.1.clone_and_restore_fit p.2)) =
      (m.trained_component_models.getD []).map
        (fun fold =>
          (m2.component_models.zip (fold.map (fun cm => cm.get_fit))).map
            (fun p => p.1.clone_and_restore_fit p.2)) := by
    rw [List.map_map]
    rfl
  have htr : List.Forall₂ (fun a b =>
      a.map (fun c => c.predict) = b.map (fun c => c.predict))
      (((m.trained_component_models.getD []).map
          (fun models => models.map (fun cm => cm.get_fit))).map
        (fun fold => (m2.component_models.zip fold).map
          (fun p => p.1.clone_and_restore_fit p.2)))
      (m.trained_component_models.getD []) := by
    rw [hdm]
    exact forall₂_map_self _ _ hcm2
  refine ⟨_, _, _, hart, hres, ?_⟩
  intro df
  have hpdf := predict_to_df_congr sem
    ({ m2 with
        presentation_models_predictors :=
          some (m.presentation_models_predictors.getD [])
        fit_experiments := some (m.fit_experiments.getD [])
        trained_component_models :=
          some (((m.trained_component_models.getD []).map
              (fun models => models.map (fun cm => cm.get_fit))).map
            (fun fold => (m2.component_models.zip fold).map
              (fun p => p.1.clone_and_restore_fit p.2))) })
    m df hfe (by rw [hfit]; rfl) rfl htr
  simp only [PresentationModel.predict]
  rw [hpdf, hfit]
  rfl

/-- C9 witness: the round trip at the concrete fit model `m1` and its
unfit counterpart `m1u` (identical configuration), where all hypotheses
hold trivially because `m1` stores a single empty component-model fold. -/
theorem claimC9_witness :
    ∃ art mr w, PresentationModel.get_fit m1 = Except.ok art ∧
      PresentationModel.restore_fit m1u art = Except.ok (mr, w) ∧
      ∀ df, PresentationModel.predict semEmpty mr df =
        PresentationModel.predict semEmpty m1 df :=
  claimC9_get_restore_roundtrip semEmpty m1 m1u rfl rfl rfl rfl rfl
    (by decide)
    (by
      intro fold hf
      have h2 : fold = [] := by simpa [m1] using hf
      rw [h2]
      rfl)
    (by
      intro fold _ p hp
      simp [m1] at hp)

/-! ### Hit-index scoring (C1) -/

theorem except_bind_ok {α β : Type} (a : α) (k : α → Except String β) :
    (Except.ok a >>= k) = k a := rfl

theorem hasCol_of_getCol (df : Table) (n : String) (v : List Cell)
    (h : getCol df n = some v) : hasCol df n = true := by
  rw [getCol] at h
  cases hf : df.find? (fun c => c.1 == n) with
  | none => rw [hf] at h; simp at h
  | some c =>
      have hpc := List.find?_some hf
      rw [hasCol, List.any_eq_true]
      exact ⟨c, List.mem_of_find?_eq_some hf, hpc⟩

theorem sum_cells01 (l : List Cell)
    (h : ∀ c ∈ l, c = Cell.num 0 ∨ c = Cell.num 1) :
    (l.map cellToNumD).sum = (l.countP (fun c => c == Cell.num 1) : ℚ) := by
  induction l with
  | nil => simp
  | cons c rest ih =>
      have ih2 := ih (fun x hx => h x (List.mem_cons_of_mem c hx))
      rcases h c (List.mem_cons_self c rest) with hc | hc <;> subst hc
      · rw [List.map_cons, List.sum_cons, List.countP_cons]
        norm_num [cellToNumD, ih2]
      · rw [List.map_cons, List.sum_cons, List.countP_cons]
        rw [show cellToNumD (Cell.num 1) = 1 from rfl, ih2]
        norm_num
        ring

theorem map_zip_filter_fst (f : ℚ → ℚ) :
    ∀ (xs : List ℚ) (hs : List Cell),
      (((xs.map f).zip hs).filter
          (fun rc => decide (0 < cellToNumD rc.2))).map (fun rc => rc.1) =
      (((xs.zip hs).filter
          (fun rc => decide (0 < cellToNumD rc.2))).map
        (fun rc => rc.1)).map f := by
  intro xs
  induction xs with
  | nil => intro hs; rfl
  | cons x xr ih =>
      intro hs
      cases hs with
      | nil => rfl
      | cons h hr =>
          simp only [List.map_cons, List.zip_cons_cons, List.filter_cons]
          by_cases hp : (0 : ℚ) < cellToNumD h
          · simp [hp, ih hr]
          · simp [hp, ih hr]

theorem mem_hitsOf (preds : List ℚ) (hits : List Cell) (v : ℚ)
    (hv : v ∈ hitsOf preds hits) : v ∈ preds := by
  rw [hitsOf] at hv
  obtain ⟨rc, hrc, hrceq⟩ := List.mem_map.mp hv
  obtain ⟨a, b⟩ := rc
  have hab := List.of_mem_zip (List.mem_filter.mp hrc).1
  rw [← hrceq]
  exact hab.1

theorem rank_eq_specRank1 (preds : List ℚ) (v : ℚ)
    (hdist : preds.count v = 1) :
    ((preds.countP (fun u => decide (v < u)) : ℚ)) +
      (((preds.countP (fun u => u == v) : ℚ)) + 1) / 2 =
    specRank1 preds v := by
  have hc : preds.countP (fun u => u == v) = 1 := by
    rw [show preds.countP (fun u => u == v) = preds.count v from rfl]
    exact hdist
  rw [specRank1, hc]
  push_cast
  ring

theorem map_rank_hitsOf (preds : List ℚ) (hits : List Cell)
    (hdist : ∀ v ∈ preds, preds.count v = 1) :
    (hitsOf preds hits).map (fun v =>
      ((preds.countP (fun u => decide (v < u)) : ℚ)) +
        (((preds.countP (fun u => u == v) : ℚ)) + 1) / 2) =
    (hitsOf preds hits).map (specRank1 preds) := by
  apply List.map_congr_left
  intro v hv
  exact rank_eq_specRank1 preds v (hdist v (mem_hitsOf preds hits v hv))

/-- C1: `score_from_peptides_df` with `include_hit_indices` on a fit model
and a table with `peptide`, `experiment_name` and `hit` columns (the `hit`
column holding 0/1 labels, at least one hit, no pre-existing `prediction`
column), when the model's predictions are pairwise distinct, returns a
score result whose `hit_indices` are the ascending sorted 1-based
descending-prediction ranks of the true hits, whose `total_peptides` is the
row count of the input table, and whose `score` is the number of true hits
ranked at most `k` divided by `k`, `k` being the number of true hits (the
returned table is the input with the predictions written in). -/
theorem claimC1_score_hit_indices (sem : ExprSem) (m : PresentationModel)
    (df : Table) (preds : List ℚ) (hitCol : List Cell)
    (hpep : hasCol df "peptide" = true)
    (hexp : hasCol df "experiment_name" = true)
    (hhit : getCol df "hit" = some hitCol)
    (hnp : hasCol df "prediction" = false)
    (hfit : m.has_been_fit = true)
    (hp : PresentationModel.predict sem m df = Except.ok preds)
    (h01 : ∀ c ∈ hitCol, c = Cell.num 0 ∨ c = Cell.num 1)
    (hdist : ∀ v ∈ preds, preds.count v = 1)
    (hk : 0 < hitCol.countP (fun c => c == Cell.num 1)) :
    PresentationModel.score_from_peptides_df sem m df true = Except.ok
      ({ score := some
            ((((sortAscQ ((hitsOf preds hitCol).map
                  (specRank1 preds))).countP (fun r => decide (r ≤
                    (hitCol.countP (fun c => c == Cell.num 1) : ℚ)))) : ℚ) /
              (hitCol.countP (fun c => c == Cell.num 1) : ℚ))
         hit_indices :=
           some (sortAscQ ((hitsOf preds hitCol).map (specRank1 preds)))
         total_peptides := some (numRows df) },
       setCol df "prediction" (preds.map Cell.num)) ∧
    (sortAscQ ((hitsOf preds hitCol).map
      (specRank1 preds))).Pairwise (· ≤ ·) := by
  have hhascol : hasCol df "hit" = true := hasCol_of_getCol df "hit" hitCol hhit
  have hdne : df ≠ [] := by
    intro he
    rw [he] at hhascol
    simp [hasCol] at hhascol
  refine ⟨?_, sortAscQ_sorted _⟩
  rw [PresentationModel.score_from_peptides_df]
  rw [if_neg (by simp [hfit]), if_neg (by simp [hpep]),
    if_neg (by simp [hexp]), if_neg (by simp [hhascol])]
  rw [hp, except_bind_ok]
  simp only []
  rw [getCol_setCol_ne df "prediction" "hit" (preds.map Cell.num)
    (by decide), hhit]
  simp only [Option.getD_some]
  rw [getCol_setCol_self df "prediction" (preds.map Cell.num)]
  simp only [Option.getD_some]
  rw [map_num_cellToNumD preds]
  rw [if_pos trivial]
  simp only [sum_cells01 hitCol h01]
  rw [numRows_setCol_not_has df "prediction" (preds.map Cell.num) hnp hdne]
  rw [rankDesc]
  rw [map_zip_filter_fst]
  rw [show ((preds.zip hitCol).filter
      (fun rc => decide (0 < cellToNumD rc.2))).map (fun rc => rc.1) =
    hitsOf preds hitCol from rfl]
  rw [map_rank_hitsOf preds hitCol hdist]
  rw [if_neg (show ¬((hitCol.countP (fun c => c == Cell.num 1) : ℚ) = 0)
    from Nat.cast_ne_zero.mpr hk.ne')]

/-- C1 witness: the hit-index scoring theorem applied to the concrete fit
model `m1` and the ten-row table `df10`, whose two hits are ranked 1 and 3
under the stored predictor `proba10`. -/
theorem claimC1_witness :
    (PresentationModel.score_from_peptides_df semEmpty m1 df10 true =
      Except.ok
        ({ score := some
              ((((sortAscQ ((hitsOf preds10 hit10).map
                    (specRank1 preds10))).countP (fun r => decide (r ≤
                      (hit10.countP (fun c => c == Cell.num 1) : ℚ)))) : ℚ) /
                (hit10.countP (fun c => c == Cell.num 1) : ℚ))
           hit_indices :=
             some (sortAscQ ((hitsOf preds10 hit10).map (specRank1 preds10)))
           total_peptides := some (numRows df10) },
         setCol df10 "prediction" (preds10.map Cell.num))) ∧
    (sortAscQ ((hitsOf preds10 hit10).map
      (specRank1 preds10))).Pairwise (· ≤ ·) :=
  claimC1_score_hit_indices semEmpty m1 df10 preds10 hit10 rfl rfl rfl rfl
    rfl rfl (by decide) (by decide) (by decide)
